import Mathlib

/-!
# datanex frontend: API client, validators and client state stores

A shallow embedding of the client-side logic of the datanex dashboard
(`src/frontend/src/pages/Blockchain.jsx`, `src/frontend/src/pages/Scraping.jsx`,
`src/frontend/src/pages/Upload.jsx`, `src/frontend/src/pages/FileDetail.jsx`,
`src/frontend/src/pages/Dashboard.jsx`, `src/frontend/src/components/Layout/Navbar.jsx`,
`src/frontend/src/services/api.js`, `src/frontend/src/store/index.js`) together
with theorems about it.

Conventions of the embedding:

* a JavaScript string is a Lean `String`; the regular expressions of the source
  carry no `u`, `i` or `m` flag and only name ASCII characters, so a character
  outside the Basic Multilingual Plane (two UTF-16 code units in JavaScript)
  fails a class or literal in both readings;
* a plain JavaScript object is the list of its own properties, `Dict`, read with
  `Dict.lookup` and written with `Dict.set`; a real object never holds a key
  twice, which is the predicate `Dict.WF`. The list order is the order of
  insertion; the theorems speak about the mapping (lookups) and not about the
  order in which an engine enumerates keys;
* property values are the primitive values `Val`; numbers are integers (byte
  counts, status codes), so `NaN` is not a value of `Val`; where a handler can
  produce `NaN` (`parseInt`, a percentage over a zero total) the number is an
  `Option` and `none` stands for it;
* an awaited call is given by its outcome, `Except.ok` for a resolved and
  `Except.error` for a rejected promise, and `Date.now()` by its value.
-/

namespace Datanex

/-! ## JavaScript values and objects -/

/-- Primitive JavaScript values. -/
inductive Val where
  | undefined
  | null
  | bool (b : Bool)
  | num (n : Int)
  | str (s : String)
  deriving DecidableEq, Repr

/-- A string-keyed mapping held in a plain object: the list of its own
properties in insertion order. -/
abbrev Dict (α : Type) := List (String × α)

/-- Own property lookup: `none` when the object has no such own property. -/
def Dict.lookup {α : Type} (o : Dict α) (k : String) : Option α :=
  match o with
  | [] => none
  | (k', v) :: rest => if k' = k then some v else Dict.lookup rest k

/-- Property write `o[k] = v`: overwrite in place, or append a new property. -/
def Dict.set {α : Type} (o : Dict α) (k : String) (v : α) : Dict α :=
  match o with
  | [] => [(k, v)]
  | (k', v') :: rest => if k' = k then (k', v) :: rest else (k', v') :: Dict.set rest k v

/-- Property removal `delete o[k]` (also `Storage.removeItem`). -/
def Dict.erase {α : Type} (o : Dict α) (k : String) : Dict α :=
  o.filter (fun kv => !decide (kv.1 = k))

/-- Object spread `{ ...a, ...b }`: a copy of `a` (equal to `a`), over which the
properties of `b` are written one by one. -/
def Dict.spread {α : Type} (a b : Dict α) : Dict α :=
  b.foldl (fun acc kv => Dict.set acc kv.1 kv.2) a

/-- Representation invariant of an object: no key occurs twice. -/
def Dict.WF {α : Type} (o : Dict α) : Prop := (o.map Prod.fst).Nodup

instance {α : Type} (o : Dict α) : Decidable (Dict.WF o) := by
  unfold Dict.WF
  infer_instance

/-- A record of primitive fields. -/
abbrev Obj := Dict Val

/-- Property read `o.k`: a missing property reads as `undefined`. -/
def Obj.get (o : Obj) (k : String) : Val :=
  (Dict.lookup o k).getD Val.undefined

/-- Strict equality `===` on primitive values. -/
def strictEq (a b : Val) : Bool := decide (a = b)

/-- Truthiness of a string: only the empty string is falsy. -/
def truthyStr (s : String) : Bool := !(s.data.isEmpty)

/-! ## Regular expressions of `Blockchain.jsx`

The two patterns are `/^0x[a-fA-F0-9]{40}$/` and `/^0x[a-fA-F0-9]{64}$/`:
a sequence of atoms, each with a fixed repetition count, anchored at both ends.
-/

/-- One character matcher of a pattern: a literal or a class of ranges. -/
inductive Atom where
  | lit (c : Char)
  | cls (ranges : List (Char × Char))
  deriving Repr

/-- Does the atom match the character? A class matches when some range holds it. -/
def Atom.test : Atom → Char → Bool
  | Atom.lit c, d => decide (c = d)
  | Atom.cls ranges, d => ranges.any (fun r => decide (r.1 ≤ d) && decide (d ≤ r.2))

/-- An atom with its quantifier `{count}` (a bare atom has count 1). -/
structure Piece where
  atom : Atom
  count : Nat
  deriving Repr

/-- Consume exactly `n` characters matching `a`; the remaining input on success. -/
def matchRep (a : Atom) : Nat → List Char → Option (List Char)
  | 0, s => some s
  | _ + 1, [] => none
  | n + 1, c :: s => if a.test c then matchRep a n s else none

/-- Match the pieces left to right from the start of the input. -/
def matchPieces : List Piece → List Char → Option (List Char)
  | [], s => some s
  | p :: ps, s =>
    match matchRep p.atom p.count s with
    | none => none
    | some rest => matchPieces ps rest

/-- The method `/^pieces$/.test(s)`: the pieces consume the whole input. -/
def regexTest (pieces : List Piece) (s : String) : Bool :=
  match matchPieces pieces s.data with
  | some [] => true
  | _ => false

/-- The class `[a-fA-F0-9]`. -/
def hexClass : Atom := Atom.cls [('a', 'f'), ('A', 'F'), ('0', '9')]

/-- The pattern `/^0x[a-fA-F0-9]{40}$/`. -/
def addressPattern : List Piece :=
  [⟨Atom.lit '0', 1⟩, ⟨Atom.lit 'x', 1⟩, ⟨hexClass, 40⟩]

/-- The pattern `/^0x[a-fA-F0-9]{64}$/`. -/
def txHashPattern : List Piece :=
  [⟨Atom.lit '0', 1⟩, ⟨Atom.lit 'x', 1⟩, ⟨hexClass, 64⟩]

/-! ## Page handlers of `Blockchain.jsx`: the validation prefix -/

/-- What a handler does with its input: report an error locally, or go on to
call the API client operation `op` with argument `arg`. -/
inductive Outcome where
  | toastError (msg : String)
  | callApi (op : String) (arg : String)
  deriving DecidableEq, Repr

/-- The handler `handleAnalyzeAddress`, up to the API call. -/
def handleAnalyzeAddress (address : String) : Outcome :=
  if !(truthyStr address) then Outcome.toastError "Please enter an Ethereum address"
  else if !(regexTest addressPattern address) then
    Outcome.toastError "Invalid Ethereum address format"
  else Outcome.callApi "analyzeBlockchainAddress" address

/-- The handler `handleAnalyzeContract`, up to the API call. -/
def handleAnalyzeContract (address : String) : Outcome :=
  if !(truthyStr address) then Outcome.toastError "Please enter a contract address"
  else if !(regexTest addressPattern address) then
    Outcome.toastError "Invalid contract address format"
  else Outcome.callApi "analyzeContract" address

/-- The handler `handleGetTransaction`, up to the API call. -/
def handleGetTransaction (txHash : String) : Outcome :=
  if !(truthyStr txHash) then Outcome.toastError "Please enter a transaction hash"
  else if !(regexTest txHashPattern txHash) then
    Outcome.toastError "Invalid transaction hash format"
  else Outcome.callApi "getTransaction" txHash

/-- The handler accepted its input: it went on to the API call. -/
def Outcome.accepted : Outcome → Bool
  | Outcome.callApi _ _ => true
  | Outcome.toastError _ => false

/-! ## File store of `store/index.js` -/

/-- State of `useFileStore`; `selectedFile = none` is JavaScript `null`. -/
structure FileStore where
  files : List Obj
  selectedFile : Option Obj
  uploadProgress : Obj
  deriving DecidableEq, Repr

/-- The expression `f.file_id`. -/
def fileIdOf (f : Obj) : Val := Obj.get f "file_id"

/-- The expression `state.selectedFile?.file_id`. -/
def selectedFileId (sel : Option Obj) : Val :=
  match sel with
  | none => Val.undefined
  | some f => fileIdOf f

/-- The action `setFiles(files)`. -/
def setFiles (files : List Obj) (state : FileStore) : FileStore :=
  { state with files := files }

/-- The action `addFile(file)`. -/
def addFile (file : Obj) (state : FileStore) : FileStore :=
  { state with files := file :: state.files }

/-- The action `updateFile(fileId, updates)`. -/
def updateFile (fileId : Val) (updates : Obj) (state : FileStore) : FileStore :=
  { state with
    files := state.files.map
      (fun f => if strictEq (fileIdOf f) fileId then Dict.spread f updates else f) }

/-- The action `removeFile(fileId)`. -/
def removeFile (fileId : Val) (state : FileStore) : FileStore :=
  { state with
    files := state.files.filter (fun f => !(strictEq (fileIdOf f) fileId))
    selectedFile :=
      if strictEq (selectedFileId state.selectedFile) fileId then none else state.selectedFile }

/-- No two entries of the files list carry the same `file_id`. -/
def FilesUnique (files : List Obj) : Prop := (files.map fileIdOf).Nodup

instance (files : List Obj) : Decidable (FilesUnique files) := by
  unfold FilesUnique
  infer_instance

/-! ## Task store of `store/index.js` -/

/-- State of `useTaskStore`: a mapping from task id to task record. -/
structure TaskStore where
  tasks : Dict Obj
  deriving DecidableEq, Repr

/-- The test `task.status !== 'SUCCESS' && task.status !== 'FAILURE'`. -/
def notCompleted (task : Obj) : Bool :=
  !(strictEq (Obj.get task "status") (Val.str "SUCCESS")) &&
    !(strictEq (Obj.get task "status") (Val.str "FAILURE"))

/-- The action `clearCompletedTasks()`: walk `Object.entries(state.tasks)` and
copy the entries that pass the test into a fresh object. -/
def clearCompletedTasks (state : TaskStore) : TaskStore :=
  { tasks := state.tasks.foldl
      (fun newTasks entry =>
        if notCompleted entry.2 then Dict.set newTasks entry.1 entry.2 else newTasks)
      [] }

/-! ## Interceptors of `services/api.js` -/

/-- An axios request config; the body type `β` is left open. -/
structure RequestConfig (β : Type) where
  method : String
  url : String
  headers : Obj
  params : Obj
  data : β

/-- The request interceptor, given the contents of `localStorage`. -/
def requestInterceptor {β : Type} (localStorage : Dict String) (config : RequestConfig β) :
    RequestConfig β :=
  match Dict.lookup localStorage "token" with
  | none => config
  | some token =>
    if truthyStr token then
      { config with
        headers := Dict.set config.headers "Authorization" (Val.str ("Bearer " ++ token)) }
    else config

/-- The part of the browser the response interceptor can touch. -/
structure Browser where
  localStorage : Dict String
  href : String
  deriving DecidableEq, Repr

/-- A response as the interceptor sees it: its `status` and its payload. -/
structure Response where
  status : Val
  data : Obj
  deriving DecidableEq, Repr

/-- An axios error; `response = none` is a failure without any response. -/
structure AxiosError where
  message : String
  response : Option Response
  deriving DecidableEq, Repr

/-- The expression `error.response?.status`. -/
def errorStatus (error : AxiosError) : Val :=
  match error.response with
  | none => Val.undefined
  | some r => r.status

/-- The fulfilled branch of the response interceptor: `(response) => response`. -/
def responseFulfilled (response : Response) (env : Browser) :
    Browser × Except AxiosError Response :=
  (env, Except.ok response)

/-- The rejected branch of the response interceptor; `Except.error` is the
rejected promise `Promise.reject(error)`. -/
def responseRejected (error : AxiosError) (env : Browser) :
    Browser × Except AxiosError Response :=
  let env' :=
    if strictEq (errorStatus error) (Val.num 401) then
      { localStorage := Dict.erase env.localStorage "token", href := "/login" }
    else env
  (env', Except.error error)

/-! ## Upload progress of `uploadFile` -/

/-- A progress event of the transport, in bytes. -/
structure ProgressEvent where
  loaded : Nat
  total : Nat
  deriving DecidableEq, Repr

/-- The value `Math.round((loaded * 100) / total)`, in exact arithmetic: the
nearest integer to the quotient, a half rounded up. JavaScript takes the
quotient in double precision, which rounds to the same integer as long as the
byte counts stay far below `2^46`. With `total = 0` the JavaScript value is
`NaN` or `Infinity`, here `none`. -/
def percentCompleted (e : ProgressEvent) : Option Nat :=
  if e.total = 0 then none
  else some ((2 * (e.loaded * 100) + e.total) / (2 * e.total))

/-- The arguments `onProgress` receives, in order, over the progress events of
one upload; `hasOnProgress` is the truthiness test `if (onProgress)`. -/
def progressCalls (hasOnProgress : Bool) (events : List ProgressEvent) : List (Option Nat) :=
  events.filterMap (fun e => if hasOnProgress then some (percentCompleted e) else none)

/-! ## Requests behind the handlers of `Blockchain.jsx` -/

/-- The method and path each blockchain operation of `services/api.js` posts to. -/
def apiEndpoint (op : String) : Option (String × String) :=
  match op with
  | "analyzeBlockchainAddress" => some ("POST", "/blockchain/analyze-address")
  | "getTransaction" => some ("POST", "/blockchain/transaction")
  | "analyzeContract" => some ("POST", "/blockchain/analyze-contract")
  | _ => none

/-- The HTTP requests a handler issues after its validation prefix. -/
def Outcome.requests : Outcome → List (String × String)
  | Outcome.toastError _ => []
  | Outcome.callApi op _ => (apiEndpoint op).toList

/-! ## Built-in string functions used by `Scraping.jsx` -/

/-- The white space and line terminator characters that `trim` and `parseInt`
strip: tab, LF, VT, FF, CR, space, NBSP, the Unicode space separators, LS, PS
and the byte order mark. -/
def isJsSpace (c : Char) : Bool :=
  let n := c.toNat
  (9 ≤ n && n ≤ 13) || n = 32 || n = 160 || n = 5760 || (8192 ≤ n && n ≤ 8202) ||
    n = 8232 || n = 8233 || n = 8239 || n = 8287 || n = 12288 || n = 65279

/-- The method `s.trim()`, on the characters of the string. -/
def jsTrim (s : String) : String :=
  ⟨((s.data.dropWhile isJsSpace).reverse.dropWhile isJsSpace).reverse⟩

/-- Split a character list at every line feed; the empty input is one empty line. -/
def splitAtLF : List Char → List (List Char)
  | [] => [[]]
  | c :: cs =>
    if c = '\n' then [] :: splitAtLF cs
    else
      match splitAtLF cs with
      | [] => [[c]]
      | l :: ls => (c :: l) :: ls

/-- The call `s.split('\n')`. -/
def jsSplitLines (s : String) : List String :=
  (splitAtLF s.data).map String.mk

/-- The value of a digit character in the given radix, if it is one. -/
def digitValue (radix : Nat) (c : Char) : Option Nat :=
  let d :=
    if '0' ≤ c ∧ c ≤ '9' then some (c.toNat - 48)
    else if 'a' ≤ c ∧ c ≤ 'z' then some (c.toNat - 87)
    else if 'A' ≤ c ∧ c ≤ 'Z' then some (c.toNat - 55)
    else none
  d.filter (fun v => decide (v < radix))

/-- The values of the longest prefix of digits in the given radix. -/
def takeDigits (radix : Nat) : List Char → List Nat
  | [] => []
  | c :: cs =>
    match digitValue radix c with
    | none => []
    | some d => d :: takeDigits radix cs

/-- The call `parseInt(s)` without radix: skip leading white space, read a sign,
a `0x` prefix and the longest run of digits; `none` is `NaN`. The integer is
exact (no rounding to a double), and `-0` is `0`. -/
def parseInt (s : String) : Option Int :=
  let s1 := s.data.dropWhile isJsSpace
  let signed : Bool × List Char :=
    match s1 with
    | '-' :: r => (true, r)
    | '+' :: r => (false, r)
    | r => (false, r)
  let based : Nat × List Char :=
    match signed.2 with
    | '0' :: 'x' :: r => (16, r)
    | '0' :: 'X' :: r => (16, r)
    | r => (10, r)
  let ds := takeDigits based.1 based.2
  if ds.isEmpty then none
  else
    let n : Int := ((ds.foldl (fun acc d => acc * based.1 + d) 0 : Nat) : Int)
    some (if signed.1 then -n else n)

/-! ## Page handlers of `Scraping.jsx` -/

/-- The form state of the scraping page; a numeric field is `none` when it
holds `NaN`. -/
structure ScrapingState where
  singleUrl : String
  multipleUrls : String
  crawlUrl : String
  maxDepth : Option Int
  maxPages : Option Int
  method : String
  deriving DecidableEq, Repr

/-- The initial values given to `useState`. -/
def initialScraping : ScrapingState :=
  { singleUrl := "", multipleUrls := "", crawlUrl := "", maxDepth := some 2,
    maxPages := some 100, method := "requests" }

/-- The `onChange` of the Max Depth input: `setMaxDepth(parseInt(e.target.value))`. -/
def onMaxDepthChange (value : String) (st : ScrapingState) : ScrapingState :=
  { st with maxDepth := parseInt value }

/-- The `onChange` of the Max Pages input: `setMaxPages(parseInt(e.target.value))`. -/
def onMaxPagesChange (value : String) (st : ScrapingState) : ScrapingState :=
  { st with maxPages := parseInt value }

/-- The `onChange` of the Starting URL input: `setCrawlUrl(e.target.value)`. -/
def onCrawlUrlChange (value : String) (st : ScrapingState) : ScrapingState :=
  { st with crawlUrl := value }

/-- What a scraping handler does up to its API call: report an error locally,
or call the API client with the given arguments. -/
inductive ScrapeAction where
  | toastError (msg : String)
  | scrapeMultiple (urls : List String) (method : String)
  | crawlWebsite (startUrl : String) (maxDepth : Option Int) (maxPages : Option Int)
  deriving DecidableEq, Repr

/-- The list `multipleUrls.split('\n').filter(url => url.trim())`. -/
def scrapeUrlList (st : ScrapingState) : List String :=
  (jsSplitLines st.multipleUrls).filter (fun url => truthyStr (jsTrim url))

/-- The handler `handleMultipleScrape`, up to the API call. -/
def handleMultipleScrape (st : ScrapingState) : ScrapeAction :=
  let urls := scrapeUrlList st
  if urls.length = 0 then ScrapeAction.toastError "Please enter at least one URL"
  else ScrapeAction.scrapeMultiple urls st.method

/-- The handler `handleCrawl`, up to the API call. -/
def handleCrawl (st : ScrapingState) : ScrapeAction :=
  if !(truthyStr st.crawlUrl) then ScrapeAction.toastError "Please enter a starting URL"
  else ScrapeAction.crawlWebsite st.crawlUrl st.maxDepth st.maxPages

/-- A line is blank: every character of it is white space. -/
def isBlankLine (l : String) : Bool := l.data.all isJsSpace

/-! ## Task store: single entries -/

/-- The action `addTask(taskId, taskInfo)`: `{ ...state.tasks, [taskId]: taskInfo }`. -/
def addTask (taskId : String) (taskInfo : Obj) (state : TaskStore) : TaskStore :=
  { tasks := Dict.spread state.tasks [(taskId, taskInfo)] }

/-- The action `removeTask(taskId)`: copy the mapping, then `delete` the key. -/
def removeTask (taskId : String) (state : TaskStore) : TaskStore :=
  { tasks := Dict.erase state.tasks taskId }

/-! ## UI store of `store/index.js` -/

/-- State of `useUIStore`. -/
structure UIStore where
  sidebarOpen : Bool
  theme : String
  notifications : List Obj
  deriving DecidableEq, Repr

/-- The action `toggleSidebar()`. -/
def toggleSidebar (state : UIStore) : UIStore :=
  { state with sidebarOpen := !state.sidebarOpen }

/-- The action `setTheme(theme)`. -/
def setTheme (theme : String) (state : UIStore) : UIStore :=
  { state with theme := theme }

/-- The entry `{ id: Date.now(), ...notification }`; `now` is the value of
`Date.now()`. -/
def notificationEntry (now : Int) (notification : Obj) : Obj :=
  Dict.spread [("id", Val.num now)] notification

/-- The action `addNotification(notification)` run at time `now`. -/
def addNotification (now : Int) (notification : Obj) (state : UIStore) : UIStore :=
  { state with notifications := state.notifications ++ [notificationEntry now notification] }

/-- The action `removeNotification(id)`. -/
def removeNotification (id : Val) (state : UIStore) : UIStore :=
  { state with
    notifications := state.notifications.filter (fun n => !(strictEq (Obj.get n "id") id)) }

/-! ## Upload page: `handleUpload` of `Upload.jsx` -/

/-- Truthiness of a primitive value. -/
def truthy : Val → Bool
  | Val.undefined => false
  | Val.null => false
  | Val.bool b => b
  | Val.num n => decide (n ≠ 0)
  | Val.str s => truthyStr s

/-- The expression `a || b`. -/
def jsOr (a b : Val) : Val := if truthy a then a else b

/-- The expression `error.response?.data?.detail`. -/
def errorDetail (error : AxiosError) : Val :=
  match error.response with
  | none => Val.undefined
  | some r => Obj.get r.data "detail"

/-- The file handed over by the drop zone. -/
structure LocalFile where
  name : String
  size : Nat
  deriving DecidableEq, Repr

/-- One entry of `uploadingFiles`; `progress = none` is a value that is not a
finite number. -/
structure UploadTask where
  id : Int
  file : LocalFile
  progress : Option Nat
  status : String
  error : Val
  deriving DecidableEq, Repr

/-- A toast shown to the user. -/
inductive Toast where
  | success (msg : String)
  | error (msg : String)
  deriving DecidableEq, Repr

/-- What `handleUpload` reads and writes: the `uploadingFiles` state of the
page, the file store, and the toasts shown so far. -/
structure UploadPage where
  uploadingFiles : List UploadTask
  fileStore : FileStore
  toasts : List Toast
  deriving DecidableEq, Repr

/-- The first `setUploadingFiles`: append the new task. -/
def startUpload (uploadId : Int) (file : LocalFile) (page : UploadPage) : UploadPage :=
  { page with
    uploadingFiles := page.uploadingFiles ++
      [{ id := uploadId, file := file, progress := some 0, status := "uploading",
         error := Val.null }] }

/-- The progress callback handed to `uploadFile`. -/
def reportProgress (uploadId : Int) (page : UploadPage) (progress : Option Nat) : UploadPage :=
  { page with
    uploadingFiles := page.uploadingFiles.map
      (fun f => if f.id = uploadId then { f with progress := progress } else f) }

/-- The update after the upload call resolved. -/
def markAnalyzing (uploadId : Int) (page : UploadPage) : UploadPage :=
  { page with
    uploadingFiles := page.uploadingFiles.map
      (fun f => if f.id = uploadId then { f with status := "analyzing", progress := some 100 }
        else f) }

/-- The update after the analyze call resolved. -/
def markSuccess (uploadId : Int) (page : UploadPage) : UploadPage :=
  { page with
    uploadingFiles := page.uploadingFiles.map
      (fun f => if f.id = uploadId then { f with status := "success" } else f) }

/-- The `catch` branch: mark the task failed and show an error toast. -/
def failUpload (uploadId : Int) (file : LocalFile) (error : AxiosError) (page : UploadPage) :
    UploadPage :=
  { page with
    uploadingFiles := page.uploadingFiles.map
      (fun f => if f.id = uploadId then
          { f with status := "error", error := jsOr (errorDetail error) (Val.str "Upload failed") }
        else f)
    toasts := page.toasts ++ [Toast.error ("Failed to upload " ++ file.name)] }

/-- The page when the upload call of a single `handleUpload` has resolved and
nothing else ran in between: the task was appended, every progress callback
was applied in order, and the task was marked `analyzing`. -/
def uploadResolved (uploadId : Int) (file : LocalFile) (events : List ProgressEvent)
    (page : UploadPage) : UploadPage :=
  markAnalyzing uploadId
    ((progressCalls true events).foldl (reportProgress uploadId) (startUpload uploadId file page))

/-- The handler `handleUpload(file)` run on its own: the updates of one call
in program order, with no step of another upload between them (the runs in
which other uploads interleave at the two `await`s are those of `runUploads`).
`uploadId` is the value of `Date.now()`, `events` are the progress events of the
transport, `uploadResult` and `analyzeResult` are the outcomes of the two
awaited calls (the second is only awaited when the first resolved). -/
def handleUpload (uploadId : Int) (file : LocalFile) (events : List ProgressEvent)
    (uploadResult analyzeResult : Except AxiosError Response) (page : UploadPage) : UploadPage :=
  match uploadResult with
  | Except.error error =>
    failUpload uploadId file error
      ((progressCalls true events).foldl (reportProgress uploadId)
        (startUpload uploadId file page))
  | Except.ok response =>
    let analyzing := uploadResolved uploadId file events page
    match analyzeResult with
    | Except.error error => failUpload uploadId file error analyzing
    | Except.ok _ =>
      let stored := { analyzing with fileStore := addFile response.data analyzing.fileStore }
      let done := markSuccess uploadId stored
      { done with toasts := done.toasts ++ [Toast.success (file.name ++ " uploaded successfully!")] }

/-- The timer callback and `removeUploadingFile`: drop the tasks with this id. -/
def removeUploadingFile (id : Int) (page : UploadPage) : UploadPage :=
  { page with uploadingFiles := page.uploadingFiles.filter (fun f => !decide (f.id = id)) }

/-! ## Upload page: several uploads in flight

`handleUpload` suspends at `await uploadFile(...)` and at `await
analyzeFile(...)`. While one call is suspended the event loop runs the steps of
the other calls: their start, their progress callbacks, their continuations
and their timers. A session is a sequence of such steps; the steps of one call
keep their program order, the steps of different calls interleave freely. -/

/-- The upload page together with the removal timers that are set and have not
fired yet (each holds the `uploadId` of the call that set it). -/
structure UploadSession where
  page : UploadPage
  timers : List Int
  deriving DecidableEq, Repr

/-- One step of some `handleUpload` call, or one of its timers firing. -/
inductive UploadEvent where
  | started (uploadId : Int) (file : LocalFile)
  | progressed (uploadId : Int) (progress : Option Nat)
  | uploaded (uploadId : Int)
  | analyzed (uploadId : Int) (file : LocalFile) (response : Response)
  | failed (uploadId : Int) (file : LocalFile) (error : AxiosError)
  | timerFired (uploadId : Int)
  deriving DecidableEq, Repr

/-- The `uploadId` of the call the step belongs to. -/
def UploadEvent.uploadId : UploadEvent → Int
  | UploadEvent.started id _ => id
  | UploadEvent.progressed id _ => id
  | UploadEvent.uploaded id => id
  | UploadEvent.analyzed id _ _ => id
  | UploadEvent.failed id _ _ => id
  | UploadEvent.timerFired id => id

/-- The effect of one step on the session:
`started` is the code up to the first `await` (lines 31-39);
`progressed` is the progress callback (lines 43-45);
`uploaded` is the continuation after `await uploadFile` (lines 48-50);
`analyzed` is the continuation after `await analyzeFile` (lines 55-66), which
also sets the 3 s timer; `failed` is the `catch` block (lines 69-77);
`timerFired` is the timer callback (line 65), which can only run for a timer
that was set. -/
def uploadStep (s : UploadSession) : UploadEvent → UploadSession
  | UploadEvent.started id file => { s with page := startUpload id file s.page }
  | UploadEvent.progressed id progress => { s with page := reportProgress id s.page progress }
  | UploadEvent.uploaded id => { s with page := markAnalyzing id s.page }
  | UploadEvent.analyzed id file response =>
    let stored := { s.page with fileStore := addFile response.data s.page.fileStore }
    let done := markSuccess id stored
    { page :=
        { done with
          toasts := done.toasts ++ [Toast.success (file.name ++ " uploaded successfully!")] }
      timers := s.timers ++ [id] }
  | UploadEvent.failed id file error => { s with page := failUpload id file error s.page }
  | UploadEvent.timerFired id =>
    if id ∈ s.timers then
      { page := removeUploadingFile id s.page, timers := s.timers.erase id }
    else s

/-- A session: the steps applied in the order the event loop ran them. -/
def runUploads (s : UploadSession) (events : List UploadEvent) : UploadSession :=
  events.foldl uploadStep s

/-- The steps of one `handleUpload` call, in program order. -/
def callEvents (uploadId : Int) (file : LocalFile) (events : List ProgressEvent)
    (uploadResult analyzeResult : Except AxiosError Response) : List UploadEvent :=
  UploadEvent.started uploadId file ::
    ((progressCalls true events).map (UploadEvent.progressed uploadId) ++
      (match uploadResult with
       | Except.error error => [UploadEvent.failed uploadId file error]
       | Except.ok response =>
         UploadEvent.uploaded uploadId ::
           (match analyzeResult with
            | Except.error error => [UploadEvent.failed uploadId file error]
            | Except.ok _ => [UploadEvent.analyzed uploadId file response])))

/-- The tasks of the list that carry the given id. -/
def tasksOf (id : Int) (page : UploadPage) : List UploadTask :=
  page.uploadingFiles.filter (fun t => decide (t.id = id))

/-! ## File store: selection and upload progress -/

/-- The action `selectFile(file)`; `none` is `null`. -/
def selectFile (file : Option Obj) (state : FileStore) : FileStore :=
  { state with selectedFile := file }

/-- The action `setUploadProgress(fileId, progress)`:
`{ ...state.uploadProgress, [fileId]: progress }`. -/
def setUploadProgress (fileId : String) (progress : Val) (state : FileStore) : FileStore :=
  { state with uploadProgress := Dict.spread state.uploadProgress [(fileId, progress)] }

/-- The action `clearUploadProgress(fileId)`: copy the mapping, `delete` the key. -/
def clearUploadProgress (fileId : String) (state : FileStore) : FileStore :=
  { state with uploadProgress := Dict.erase state.uploadProgress fileId }

/-! ## Task store: `updateTask` -/

/-- The expression `state.tasks[taskId]` under a spread: a missing entry spreads
as the empty object. -/
def taskEntryOrEmpty (tasks : Dict Obj) (taskId : String) : Obj :=
  (Dict.lookup tasks taskId).getD []

/-- The action `updateTask(taskId, updates)`:
`{ ...state.tasks, [taskId]: { ...state.tasks[taskId], ...updates } }`. -/
def updateTask (taskId : String) (updates : Obj) (state : TaskStore) : TaskStore :=
  { tasks := Dict.spread state.tasks
      [(taskId, Dict.spread (taskEntryOrEmpty state.tasks taskId) updates)] }

/-! ## Store operations over entries that may be `null`

The stores above hold records. JavaScript lets a caller put `null` or
`undefined` where a record is expected (`addTask(id, null)`, `setFiles([null])`);
an entry is then `none`, and reading a property of it throws. -/

/-- A thrown JavaScript error. -/
inductive JsError where
  | typeError (msg : String)
  deriving DecidableEq, Repr

/-- The property read `e.k` on an entry that may be `null` or `undefined`. -/
def readProp (e : Option Obj) (k : String) : Except JsError Val :=
  match e with
  | none => Except.error (JsError.typeError ("Cannot read properties of null, reading " ++ k))
  | some o => Except.ok (Obj.get o k)

/-- The action `addTask(taskId, taskInfo)` with any `taskInfo`; it reads nothing. -/
def addTaskRaw (taskId : String) (taskInfo : Option Obj) (tasks : Dict (Option Obj)) :
    Dict (Option Obj) :=
  Dict.spread tasks [(taskId, taskInfo)]

/-- The loop of `clearCompletedTasks` over entries that may be `null`: the read
`task.status` comes first and may throw. -/
def clearCompletedLoopRaw (newTasks : Dict (Option Obj)) :
    Dict (Option Obj) → Except JsError (Dict (Option Obj))
  | [] => Except.ok newTasks
  | entry :: rest =>
    match readProp entry.2 "status" with
    | Except.error err => Except.error err
    | Except.ok status =>
      if !(strictEq status (Val.str "SUCCESS")) && !(strictEq status (Val.str "FAILURE")) then
        clearCompletedLoopRaw (Dict.set newTasks entry.1 entry.2) rest
      else clearCompletedLoopRaw newTasks rest

/-- The action `clearCompletedTasks()` over entries that may be `null`. -/
def clearCompletedTasksRaw (tasks : Dict (Option Obj)) : Except JsError (Dict (Option Obj)) :=
  clearCompletedLoopRaw [] tasks

/-- The `files.map(...)` of `updateFile` over entries that may be `null`. -/
def updateFileRaw (fileId : Val) (updates : Obj) :
    List (Option Obj) → Except JsError (List (Option Obj))
  | [] => Except.ok []
  | f :: rest =>
    match readProp f "file_id" with
    | Except.error err => Except.error err
    | Except.ok id =>
      match updateFileRaw fileId updates rest with
      | Except.error err => Except.error err
      | Except.ok rest' =>
        Except.ok
          ((if strictEq id fileId then f.map (fun o => Dict.spread o updates) else f) :: rest')

/-- The `files.filter(...)` of `removeFile` over entries that may be `null`. -/
def removeFileRaw (fileId : Val) : List (Option Obj) → Except JsError (List (Option Obj))
  | [] => Except.ok []
  | f :: rest =>
    match readProp f "file_id" with
    | Except.error err => Except.error err
    | Except.ok id =>
      match removeFileRaw fileId rest with
      | Except.error err => Except.error err
      | Except.ok rest' => Except.ok (if !(strictEq id fileId) then f :: rest' else rest')

/-! ## Upload page: `onDrop` -/

/-- The callback `onDrop(acceptedFiles)`: `handleUpload` is called for each file
in turn and each call runs, before its first `await`, the read of `Date.now()`
and the first `setUploadingFiles`. `readings` are the values `Date.now()` gives
to the successive calls. -/
def onDrop (readings : List Int) (acceptedFiles : List LocalFile) (page : UploadPage) :
    UploadPage :=
  (List.zip readings acceptedFiles).foldl (fun p r => startUpload r.1 r.2 p) page

/-! ## API client operations of `services/api.js` -/

/-- A value placed in a request body or a form: a primitive, a list of strings
(the `urls` array), or a file. -/
inductive Arg where
  | val (v : Val)
  | strs (l : List String)
  | file (f : LocalFile)
  deriving DecidableEq, Repr

/-- The data argument an operation hands to axios: none at all (`api.get`,
`api.delete`), the value `null`, an object literal, or a `FormData`. -/
inductive Body where
  | absent
  | jsonNull
  | json (fields : Dict Arg)
  | form (fields : Dict Arg)
  deriving DecidableEq, Repr

/-- The request an operation hands to axios. -/
abbrev ApiRequest := RequestConfig Body

/-- Whether a body goes out with the request. The client of `api.js` is
created with the default header `Content-Type: application/json`; with it the
request transform of axios turns every data value other than `undefined` into
text, and `null` goes out as the JSON text `null`. -/
def Body.isSent : Body → Bool
  | Body.absent => false
  | Body.jsonNull => true
  | Body.json _ => true
  | Body.form _ => true

/-- A default parameter value: it applies when the argument is `undefined`. -/
def dflt (v d : Val) : Val := if v = Val.undefined then d else v

/-- The call `api.get(url, { params })`. -/
def apiGet (url : String) (params : Obj) : ApiRequest :=
  { method := "GET", url := url, headers := [], params := params, data := Body.absent }

/-- The call `api.delete(url)`. -/
def apiDelete (url : String) : ApiRequest :=
  { method := "DELETE", url := url, headers := [], params := [], data := Body.absent }

/-- The call `api.post(url, data, { headers, params })`. -/
def apiPost (url : String) (data : Body) (headers params : Obj) : ApiRequest :=
  { method := "POST", url := url, headers := headers, params := params, data := data }

/-- The operation `uploadFile(file, onProgress)`: the form holds the file under `file`. -/
def uploadFile (file : LocalFile) : ApiRequest :=
  apiPost "/upload/file" (Body.form [("file", Arg.file file)])
    [("Content-Type", Val.str "multipart/form-data")] []

/-- The operation `getFiles(skip = 0, limit = 50)`. -/
def getFiles (skip limit : Val) : ApiRequest :=
  apiGet "/upload/files" [("skip", dflt skip (Val.num 0)), ("limit", dflt limit (Val.num 50))]

/-- The operation `getFileInfo(fileId)`. -/
def getFileInfo (fileId : String) : ApiRequest :=
  apiGet ("/upload/file/" ++ fileId) []

/-- The operation `deleteFile(fileId)`. -/
def deleteFile (fileId : String) : ApiRequest :=
  apiDelete ("/upload/file/" ++ fileId)

/-- The operation `analyzeFile(fileId)`. -/
def analyzeFile (fileId : Val) : ApiRequest :=
  apiPost "/analyze/full" (Body.json [("file_id", Arg.val fileId)]) [] []

/-- The operation `cleanData(fileId, strategy = 'drop')`. -/
def cleanData (fileId strategy : Val) : ApiRequest :=
  apiPost "/analyze/clean"
    (Body.json [("file_id", Arg.val fileId), ("strategy", Arg.val (dflt strategy (Val.str "drop")))])
    [] []

/-- The operation `deduplicateData(fileId, method = 'hybrid', keep = 'first')`. -/
def deduplicateData (fileId method keep : Val) : ApiRequest :=
  apiPost "/analyze/deduplicate"
    (Body.json [("file_id", Arg.val fileId), ("method", Arg.val (dflt method (Val.str "hybrid"))),
      ("keep", Arg.val (dflt keep (Val.str "first")))])
    [] []

/-- The operation `getTaskStatus(taskId)`. -/
def getTaskStatus (taskId : String) : ApiRequest :=
  apiGet ("/analyze/task/" ++ taskId) []

/-- The operation `scrapeUrl(url, method = 'requests')`. -/
def scrapeUrl (url method : Val) : ApiRequest :=
  apiPost "/scrape/url"
    (Body.json [("url", Arg.val url), ("method", Arg.val (dflt method (Val.str "requests")))]) [] []

/-- The operation `scrapeMultiple(urls, method = 'requests', maxConcurrent = 5)`. -/
def scrapeMultiple (urls : List String) (method maxConcurrent : Val) : ApiRequest :=
  apiPost "/scrape/multiple"
    (Body.json [("urls", Arg.strs urls), ("method", Arg.val (dflt method (Val.str "requests"))),
      ("max_concurrent", Arg.val (dflt maxConcurrent (Val.num 5)))])
    [] []

/-- The operation `crawlWebsite(startUrl, maxDepth = 2, maxPages = 100)`. -/
def crawlWebsite (startUrl maxDepth maxPages : Val) : ApiRequest :=
  apiPost "/scrape/crawl"
    (Body.json [("start_url", Arg.val startUrl), ("max_depth", Arg.val (dflt maxDepth (Val.num 2))),
      ("max_pages", Arg.val (dflt maxPages (Val.num 100)))])
    [] []

/-- The operation `extractTables(url)`: `api.post(path, null, { params: { url } })`. -/
def extractTables (url : Val) : ApiRequest :=
  apiPost "/scrape/extract-tables" Body.jsonNull [] [("url", url)]

/-- The operation `analyzeBlockchainAddress(address)`. -/
def analyzeBlockchainAddress (address : Val) : ApiRequest :=
  apiPost "/blockchain/analyze-address" (Body.json [("address", Arg.val address)]) [] []

/-- The operation `getTransaction(txHash)`. -/
def getTransaction (txHash : Val) : ApiRequest :=
  apiPost "/blockchain/transaction" (Body.json [("tx_hash", Arg.val txHash)]) [] []

/-- The operation `getBlock(blockNumber)`. -/
def getBlock (blockNumber : Val) : ApiRequest :=
  apiPost "/blockchain/block" (Body.json [("block_number", Arg.val blockNumber)]) [] []

/-- The operation `getGasPrices()`. -/
def getGasPrices : ApiRequest := apiGet "/blockchain/gas-prices" []

/-- The operation `analyzeContract(address)`. -/
def analyzeContract (address : Val) : ApiRequest :=
  apiPost "/blockchain/analyze-contract" (Body.json [("address", Arg.val address)]) [] []

/-- The operation `healthCheck()`. -/
def healthCheck : ApiRequest := apiGet "/health" []

/-- The operation `getStats()`. -/
def getStats : ApiRequest := apiGet "/stats" []

/-- One row of the endpoint table of the specification: method, path (the
part before `{id}` when `hasId`), the field names of the body (`none` when the
row lists no body) and the names of the query parameters. -/
structure EndpointRow where
  method : String
  path : String
  hasId : Bool
  body : Option (List String)
  query : List String
  deriving DecidableEq, Repr

/-- The data argument is what the row lists: no data when the row lists no
body, and otherwise an object or form with exactly the listed field names. -/
def Body.matchesRow (data : Body) (body : Option (List String)) : Prop :=
  match data, body with
  | Body.absent, none => True
  | Body.json fields, some names => fields.map Prod.fst = names
  | Body.form fields, some names => fields.map Prod.fst = names
  | _, _ => False

/-- The request is the one the row describes; `id` fills `{id}` in the path. -/
def conforms (req : ApiRequest) (row : EndpointRow) (id : String) : Prop :=
  req.method = row.method ∧
  req.url = (if row.hasId then row.path ++ id else row.path) ∧
  Body.matchesRow req.data row.body ∧
  req.params.map Prod.fst = row.query

/-- The endpoint table of the specification, each row under the name of the
operation that the component design lists for it. -/
def endpointTable : Dict EndpointRow :=
  [("uploadFile", ⟨"POST", "/upload/file", false, some ["file"], []⟩),
   ("getFiles", ⟨"GET", "/upload/files", false, none, ["skip", "limit"]⟩),
   ("getFileInfo", ⟨"GET", "/upload/file/", true, none, []⟩),
   ("deleteFile", ⟨"DELETE", "/upload/file/", true, none, []⟩),
   ("analyzeFile", ⟨"POST", "/analyze/full", false, some ["file_id"], []⟩),
   ("cleanData", ⟨"POST", "/analyze/clean", false, some ["file_id", "strategy"], []⟩),
   ("deduplicateData",
     ⟨"POST", "/analyze/deduplicate", false, some ["file_id", "method", "keep"], []⟩),
   ("getTaskStatus", ⟨"GET", "/analyze/task/", true, none, []⟩),
   ("scrapeUrl", ⟨"POST", "/scrape/url", false, some ["url", "method"], []⟩),
   ("scrapeMultiple",
     ⟨"POST", "/scrape/multiple", false, some ["urls", "method", "max_concurrent"], []⟩),
   ("crawlWebsite",
     ⟨"POST", "/scrape/crawl", false, some ["start_url", "max_depth", "max_pages"], []⟩),
   ("extractTables", ⟨"POST", "/scrape/extract-tables", false, none, ["url"]⟩),
   ("analyzeBlockchainAddress",
     ⟨"POST", "/blockchain/analyze-address", false, some ["address"], []⟩),
   ("getTransaction", ⟨"POST", "/blockchain/transaction", false, some ["tx_hash"], []⟩),
   ("getBlock", ⟨"POST", "/blockchain/block", false, some ["block_number"], []⟩),
   ("getGasPrices", ⟨"GET", "/blockchain/gas-prices", false, none, []⟩),
   ("analyzeContract", ⟨"POST", "/blockchain/analyze-contract", false, some ["address"], []⟩),
   ("healthCheck", ⟨"GET", "/health", false, none, []⟩),
   ("getStats", ⟨"GET", "/stats", false, none, []⟩)]

/-- The request is the one the table describes for the operation `op`. -/
def conformsTo (op : String) (req : ApiRequest) (id : String) : Prop :=
  ∃ row : EndpointRow, Dict.lookup endpointTable op = some row ∧ conforms req row id

/-! ## What the page handlers do with a rejected call -/

/-- An effect of a page handler that the user or the network can observe. -/
inductive PageEffect where
  | confirmPrompt (msg : String)
  | request (method url : String)
  | toastSuccess (msg : String)
  | toastError (msg : Val)
  | consoleError (label : String)
  | navigate (path : String)
  deriving DecidableEq, Repr

/-- The functions of the pages and of the navbar that call the API client
inside a `try` block; `handleUpload` is modelled apart. -/
inductive Handler where
  | handleAnalyzeAddress
  | handleGetTransaction
  | handleGetBlock
  | handleAnalyzeContract
  | loadGasPrices
  | handleSingleScrape
  | handleMultipleScrape
  | handleCrawl
  | handleExtractTables
  | loadFileDetail
  | handleDelete
  | loadDashboardData
  | loadStats
  deriving DecidableEq, Repr

/-- The expression `error.response?.data?.detail || generic`. -/
def detailOr (error : AxiosError) (generic : String) : Val :=
  jsOr (errorDetail error) (Val.str generic)

/-- The `catch` block of each handler. -/
def catchEffects : Handler → AxiosError → List PageEffect
  | Handler.handleAnalyzeAddress, error =>
    [PageEffect.consoleError "Analysis failed:",
     PageEffect.toastError (detailOr error "Analysis failed")]
  | Handler.handleGetTransaction, error =>
    [PageEffect.consoleError "Failed to get transaction:",
     PageEffect.toastError (detailOr error "Failed to get transaction")]
  | Handler.handleGetBlock, error =>
    [PageEffect.consoleError "Failed to get block:",
     PageEffect.toastError (detailOr error "Failed to get block")]
  | Handler.handleAnalyzeContract, error =>
    [PageEffect.consoleError "Contract analysis failed:",
     PageEffect.toastError (detailOr error "Analysis failed")]
  | Handler.loadGasPrices, _ =>
    [PageEffect.consoleError "Failed to load gas prices:"]
  | Handler.handleSingleScrape, error =>
    [PageEffect.consoleError "Scraping failed:",
     PageEffect.toastError (detailOr error "Scraping failed")]
  | Handler.handleMultipleScrape, error =>
    [PageEffect.consoleError "Multiple scraping failed:",
     PageEffect.toastError (detailOr error "Scraping failed")]
  | Handler.handleCrawl, error =>
    [PageEffect.consoleError "Crawling failed:",
     PageEffect.toastError (detailOr error "Crawling failed")]
  | Handler.handleExtractTables, error =>
    [PageEffect.consoleError "Table extraction failed:",
     PageEffect.toastError (detailOr error "Extraction failed")]
  | Handler.loadFileDetail, _ =>
    [PageEffect.consoleError "Failed to load file:",
     PageEffect.toastError (Val.str "Failed to load file details")]
  | Handler.handleDelete, _ =>
    [PageEffect.consoleError "Failed to delete file:",
     PageEffect.toastError (Val.str "Failed to delete file")]
  | Handler.loadDashboardData, _ =>
    [PageEffect.consoleError "Failed to load dashboard:",
     PageEffect.toastError (Val.str "Failed to load dashboard data")]
  | Handler.loadStats, _ =>
    [PageEffect.consoleError "Failed to load stats:"]

/-- The effect is a notification shown to the user. -/
def PageEffect.isToast : PageEffect → Bool
  | PageEffect.toastSuccess _ => true
  | PageEffect.toastError _ => true
  | _ => false

/-- The handler `handleDelete` of `FileDetail.jsx`; `confirmed` is the answer of
`window.confirm`, `result` the outcome of the awaited `deleteFile(fileId)`. -/
def handleDelete (fileId : String) (confirmed : Bool)
    (result : Except AxiosError Response) : List PageEffect :=
  PageEffect.confirmPrompt "Are you sure you want to delete this file?" ::
    (if !confirmed then []
     else
      PageEffect.request (deleteFile fileId).method (deleteFile fileId).url ::
        (match result with
         | Except.ok _ =>
           [PageEffect.toastSuccess "File deleted successfully", PageEffect.navigate "/upload"]
         | Except.error error => catchEffects Handler.handleDelete error))

/-! ## `formatFileSize` of `FileDetail.jsx` -/

/-- The value `Math.floor(Math.log(n) / Math.log(k))` for `n ≥ 1`, in exact
arithmetic: the number of times `n` can be divided by `k` before it drops
below `k`. -/
def floorLog (k : Nat) : Nat → Nat → Nat
  | 0, _ => 0
  | fuel + 1, n => if n < k then 0 else floorLog k fuel (n / k) + 1

/-- The unit index `i` of `formatFileSize`. -/
def unitIndex (bytes : Nat) : Nat := floorLog 1024 bytes bytes

/-- The value `Math.round(bytes / Math.pow(k, i) * 100)`, in exact arithmetic
(a half rounded up): the displayed number in hundredths. -/
def sizeHundredths (bytes : Nat) : Nat :=
  (2 * (bytes * 100) + 1024 ^ unitIndex bytes) / (2 * 1024 ^ unitIndex bytes)

/-- The decimal text of `h / 100`, as JavaScript prints a number with at most
two decimals: no trailing zeros, no point for an integer. -/
def renderHundredths (h : Nat) : String :=
  if h % 100 = 0 then toString (h / 100)
  else if h % 10 = 0 then toString (h / 100) ++ "." ++ toString (h % 100 / 10)
  else toString (h / 100) ++ "." ++ toString (h % 100 / 10) ++ toString (h % 10)

/-- The table `sizes`. -/
def sizes : List String := ["Bytes", "KB", "MB", "GB"]

/-- The function `formatFileSize(bytes)` on a byte count; an index outside
`sizes` prints as `undefined`. Logarithm, power and quotient are exact here;
JavaScript computes them in double precision. -/
def formatFileSize (bytes : Nat) : String :=
  if bytes = 0 then "0 Bytes"
  else renderHundredths (sizeHundredths bytes) ++ " " ++ (sizes[unitIndex bytes]?).getD "undefined"

/-! ## Concrete inputs used in examples -/

/-- A file record with id `a`. -/
def fileA : Obj := [("file_id", Val.str "a"), ("status", Val.str "uploaded")]

/-- A second record carrying the same id `a`. -/
def fileA2 : Obj := [("file_id", Val.str "a"), ("status", Val.str "processing")]

/-- A file record with id `b`. -/
def fileB : Obj := [("file_id", Val.str "b"), ("status", Val.str "uploaded")]

/-- The empty file store. -/
def emptyFiles : FileStore := { files := [], selectedFile := none, uploadProgress := [] }

/-- A store that already holds a record with id `a`. -/
def storeA : FileStore := { files := [fileA2], selectedFile := none, uploadProgress := [] }

/-- A store holding the record with id `b`. -/
def storeB : FileStore := { files := [fileB], selectedFile := some fileB, uploadProgress := [] }

/-- A task store with one pending, one successful and one failed task. -/
def mixedTasks : TaskStore :=
  { tasks := [("t1", [("status", Val.str "PENDING")]), ("t2", [("status", Val.str "SUCCESS")]),
      ("t3", [("status", Val.str "FAILURE")])] }

/-- A request config without headers. -/
def plainConfig : RequestConfig Unit :=
  { method := "get", url := "/stats", headers := [], params := [], data := () }

/-- A browser session holding a token. -/
def loggedIn : Browser := { localStorage := [("token", "abc")], href := "/files" }

/-- An error carrying a 401 response. -/
def error401 : AxiosError :=
  { message := "Request failed with status code 401",
    response := some { status := Val.num 401, data := [] } }

/-- An error carrying a 500 response. -/
def error500 : AxiosError :=
  { message := "Request failed with status code 500",
    response := some { status := Val.num 500, data := [] } }

/-- A page with no upload in flight and an empty file store. -/
def emptyUploadPage : UploadPage :=
  { uploadingFiles := [], fileStore := emptyFiles, toasts := [] }

/-- A dropped file of three bytes. -/
def smallFile : LocalFile := { name := "data.csv", size := 3 }

/-- The response to an upload: the record of the new file, status `uploaded`. -/
def uploadOk : Response := { status := Val.num 200, data := fileA }

/-- The response to the analyze call. -/
def analyzeOk : Response :=
  { status := Val.num 200, data := [("file_id", Val.str "a"), ("status", Val.str "completed")] }

/-- A UI store holding one notification created at time 1000. -/
def uiWithNote : UIStore :=
  { sidebarOpen := true, theme := "light",
    notifications := [[("id", Val.num 1000), ("message", Val.str "saved")]] }

/-- A task store with a single pending task `t1`. -/
def oneTask : TaskStore := { tasks := [("t1", [("status", Val.str "PENDING")])] }

/-- Two files dropped together. -/
def droppedPair : List LocalFile := [{ name := "a.csv", size := 1 }, { name := "b.csv", size := 2 }]

/-- The page after the two files were dropped within one millisecond. -/
def pageAfterDrop : UploadPage := onDrop [1700, 1700] droppedPair emptyUploadPage

/-- An error whose response carries a `detail` message. -/
def errorWithDetail : AxiosError :=
  { message := "Request failed with status code 409",
    response := some { status := Val.num 409, data := [("detail", Val.str "File is locked")] } }

/-- An error without any response (a transport failure). -/
def networkError : AxiosError := { message := "Network Error", response := none }

/-- The session in which nothing has been uploaded yet. -/
def emptySession : UploadSession := { page := emptyUploadPage, timers := [] }

/-- The first file of the dropped pair. -/
def fileOne : LocalFile := { name := "a.csv", size := 1 }

/-- The second file of the dropped pair. -/
def fileTwo : LocalFile := { name := "b.csv", size := 2 }

/-- Two files dropped in the same millisecond; the upload of the first resolves
while the second is still uploading. -/
def collidingUploads : List UploadEvent :=
  [UploadEvent.started 1700 fileOne, UploadEvent.started 1700 fileTwo,
   UploadEvent.progressed 1700 (some 100), UploadEvent.uploaded 1700]

/-- Two files dropped in the same millisecond; both upload calls have resolved. -/
def collidingAnalyses : List UploadEvent :=
  [UploadEvent.started 1700 fileOne, UploadEvent.started 1700 fileTwo,
   UploadEvent.uploaded 1700, UploadEvent.uploaded 1700]

/-! ## Shapes named by the specification -/

/-- A hexadecimal character: `0-9`, `a-f` or `A-F`. -/
def IsHexChar (c : Char) : Prop :=
  ('0' ≤ c ∧ c ≤ '9') ∨ ('a' ≤ c ∧ c ≤ 'f') ∨ ('A' ≤ c ∧ c ≤ 'F')

/-- The string is exactly `0x` followed by exactly `n` hexadecimal characters. -/
def IsHexString (n : Nat) (s : String) : Prop :=
  ∃ body : List Char, s.data = '0' :: 'x' :: body ∧ body.length = n ∧ ∀ c ∈ body, IsHexChar c

/-! ## Lemmas on objects -/

theorem Dict.lookup_eq_none {α : Type} (o : Dict α) (k : String) :
    Dict.lookup o k = none ↔ k ∉ o.map Prod.fst := by
  induction o with
  | nil => simp [Dict.lookup]
  | cons kv rest ih =>
    obtain ⟨k', v⟩ := kv
    by_cases h : k' = k
    · simp [Dict.lookup, h]
    · have h' : ¬ k = k' := fun e => h e.symm
      simp [Dict.lookup, h, h', ih]

theorem Dict.mem_of_lookup {α : Type} (o : Dict α) (k : String) (v : α)
    (h : Dict.lookup o k = some v) : (k, v) ∈ o := by
  induction o with
  | nil => simp [Dict.lookup] at h
  | cons kv rest ih =>
    obtain ⟨k0, v0⟩ := kv
    by_cases hk : k0 = k
    · simp only [Dict.lookup, hk, if_true, Option.some.injEq] at h
      simp [hk, h]
    · simp only [Dict.lookup, hk, if_false] at h
      exact List.mem_cons_of_mem _ (ih h)

theorem Dict.lookup_set {α : Type} (o : Dict α) (k k' : String) (v : α) :
    Dict.lookup (Dict.set o k v) k' = if k = k' then some v else Dict.lookup o k' := by
  induction o with
  | nil => simp [Dict.set, Dict.lookup]
  | cons kv rest ih =>
    obtain ⟨k0, v0⟩ := kv
    by_cases h0 : k0 = k
    · subst h0
      by_cases h1 : k0 = k'
      · simp [Dict.set, Dict.lookup, h1]
      · simp [Dict.set, Dict.lookup, h1]
    · by_cases h1 : k0 = k'
      · subst h1
        have : ¬ k = k0 := fun e => h0 e.symm
        simp [Dict.set, Dict.lookup, h0, this]
      · simp [Dict.set, Dict.lookup, h0, h1, ih]

theorem Dict.set_of_not_mem {α : Type} (o : Dict α) (k : String) (v : α)
    (h : k ∉ o.map Prod.fst) : Dict.set o k v = o ++ [(k, v)] := by
  induction o with
  | nil => rfl
  | cons kv rest ih =>
    obtain ⟨k0, v0⟩ := kv
    simp only [List.map_cons, List.mem_cons, not_or] at h
    have h0 : ¬ k0 = k := fun e => h.1 e.symm
    simp [Dict.set, h0, ih h.2]

theorem Dict.lookup_spread_of_none {α : Type} (a b : Dict α) (k : String)
    (h : Dict.lookup b k = none) : Dict.lookup (Dict.spread a b) k = Dict.lookup a k := by
  unfold Dict.spread
  induction b generalizing a with
  | nil => rfl
  | cons kv rest ih =>
    obtain ⟨k0, v0⟩ := kv
    have hk : ¬ k0 = k := by
      intro e
      simp [Dict.lookup, e] at h
    have hrest : Dict.lookup rest k = none := by
      simpa [Dict.lookup, hk] using h
    simp only [List.foldl_cons]
    rw [ih _ hrest, Dict.lookup_set, if_neg hk]

theorem Dict.lookup_filter {α : Type} (o : Dict α) (p : α → Bool) (k : String)
    (hwf : Dict.WF o) :
    Dict.lookup (o.filter (fun e => p e.2)) k = (Dict.lookup o k).filter p := by
  induction o with
  | nil => rfl
  | cons kv rest ih =>
    obtain ⟨k0, v0⟩ := kv
    have hwf' : Dict.WF rest := (List.nodup_cons.mp hwf).2
    have hk0 : k0 ∉ rest.map Prod.fst := (List.nodup_cons.mp hwf).1
    by_cases hk : k0 = k
    · subst hk
      have hnone : Dict.lookup rest k0 = none := (Dict.lookup_eq_none rest k0).mpr hk0
      by_cases hp : p v0 = true
      · simp [List.filter, hp, Dict.lookup, Option.filter]
      · have hp' : p v0 = false := by simpa using hp
        simp only [List.filter, hp', Dict.lookup, if_true, Option.filter]
        rw [ih hwf', hnone]
        simp [Option.filter, hp']
    · by_cases hp : p v0 = true
      · simp [List.filter, hp, Dict.lookup, hk, ih hwf']
      · have hp' : p v0 = false := by simpa using hp
        simp [List.filter, hp', Dict.lookup, hk, ih hwf']

/-- The loop of `clearCompletedTasks`, started from an object whose keys are
disjoint from those still to come, appends the entries that pass the test. -/
theorem clearCompleted_loop (l acc : Dict Obj)
    (hdisj : ∀ kv ∈ l, kv.1 ∉ acc.map Prod.fst) (hwf : Dict.WF l) :
    l.foldl (fun newTasks entry =>
        if notCompleted entry.2 then Dict.set newTasks entry.1 entry.2 else newTasks) acc
      = acc ++ l.filter (fun e => notCompleted e.2) := by
  induction l generalizing acc with
  | nil => simp
  | cons kv rest ih =>
    have hwf' : Dict.WF rest := (List.nodup_cons.mp hwf).2
    have hk0 : kv.1 ∉ rest.map Prod.fst := (List.nodup_cons.mp hwf).1
    have hkacc : kv.1 ∉ acc.map Prod.fst := hdisj kv (List.mem_cons_self _ _)
    simp only [List.foldl_cons]
    by_cases hp : notCompleted kv.2 = true
    · rw [if_pos hp, Dict.set_of_not_mem _ _ _ hkacc, ih _ _ hwf']
      · simp [List.filter, hp]
      · intro e he hmem
        simp only [List.map_append, List.map_cons, List.map_nil, List.mem_append,
          List.mem_singleton] at hmem
        rcases hmem with hmem | hmem
        · exact hdisj e (List.mem_cons_of_mem _ he) hmem
        · exact hk0 (hmem ▸ List.mem_map_of_mem Prod.fst he)
    · rw [if_neg hp, ih _ _ hwf']
      · have hp' : notCompleted kv.2 = false := by simpa using hp
        simp [List.filter, hp']
      · intro e he
        exact hdisj e (List.mem_cons_of_mem _ he)

theorem notCompleted_iff (task : Obj) :
    notCompleted task = true ↔
      Obj.get task "status" ≠ Val.str "SUCCESS" ∧ Obj.get task "status" ≠ Val.str "FAILURE" := by
  simp [notCompleted, strictEq]

theorem strictEq_iff (a b : Val) : strictEq a b = true ↔ a = b := by
  simp [strictEq]

/-- Writing `updates` over `f` keeps `file_id` when `updates` has no such field. -/
theorem fileIdOf_spread (f updates : Obj) (h : Dict.lookup updates "file_id" = none) :
    fileIdOf (Dict.spread f updates) = fileIdOf f := by
  simp [fileIdOf, Obj.get, Dict.lookup_spread_of_none f updates "file_id" h]

theorem Dict.lookup_erase {α : Type} (o : Dict α) (k k' : String) :
    Dict.lookup (Dict.erase o k) k' = if k = k' then none else Dict.lookup o k' := by
  induction o with
  | nil => simp [Dict.erase, Dict.lookup]
  | cons kv rest ih =>
    obtain ⟨k0, v0⟩ := kv
    unfold Dict.erase at ih ⊢
    by_cases h0 : k0 = k
    · subst h0
      by_cases h1 : k0 = k'
      · subst h1
        simpa [List.filter] using ih
      · simp [List.filter, Dict.lookup, h1, ih]
    · by_cases h1 : k0 = k'
      · subst h1
        have : ¬ k = k0 := fun e => h0 e.symm
        simp [List.filter, Dict.lookup, h0, this]
      · simp [List.filter, Dict.lookup, h0, h1, ih]

theorem truthyStr_iff (s : String) : truthyStr s = true ↔ s ≠ "" := by
  obtain ⟨l⟩ := s
  cases l with
  | nil => simp [truthyStr]
  | cons c cs =>
    simp only [truthyStr, List.isEmpty_cons, Bool.not_false, ne_eq, true_iff]
    intro h
    exact absurd (congrArg String.data h) (by simp)

/-- The integer formula of `percentCompleted` is the quotient rounded to the
nearest integer with a half rounded up: `floor (x / t + 1/2)`. -/
theorem roundHalfUp_eq_floor (x t : Nat) (ht : 0 < t) :
    (2 * x + t) / (2 * t) = ⌊((x : ℚ) / (t : ℚ) + 1 / 2)⌋₊ := by
  have htq : (t : ℚ) ≠ 0 := by exact_mod_cast ht.ne'
  have h : ((x : ℚ) / (t : ℚ) + 1 / 2) = ((2 * x + t : ℕ) : ℚ) / ((2 * t : ℕ) : ℚ) := by
    push_cast
    field_simp
    ring
  rw [h, Nat.floor_div_eq_div]

/-- The rounded percentage is monotone in the bytes loaded. -/
theorem roundPercent_mono (total a b : Nat) (h : a ≤ b) :
    (2 * (a * 100) + total) / (2 * total) ≤ (2 * (b * 100) + total) / (2 * total) := by
  apply Nat.div_le_div_right
  have := Nat.mul_le_mul_right 100 h
  omega

/-- The rounded percentage is at most 100 when `loaded ≤ total`. -/
theorem roundPercent_le (total a : Nat) (ht : 0 < total) (h : a ≤ total) :
    (2 * (a * 100) + total) / (2 * total) ≤ 100 := by
  have h2 : 0 < 2 * total := by omega
  rw [Nat.div_le_iff_le_mul_add_pred h2]
  have := Nat.mul_le_mul_right 100 h
  omega

/-! ## Lemmas on the pattern matcher -/

theorem hexClass_test (c : Char) : hexClass.test c = true ↔ IsHexChar c := by
  simp only [hexClass, Atom.test, IsHexChar, List.any_cons, List.any_nil, Bool.or_false,
    Bool.or_eq_true, Bool.and_eq_true, decide_eq_true_eq]
  tauto

theorem lit_test (c d : Char) : (Atom.lit c).test d = true ↔ d = c := by
  simp only [Atom.test, decide_eq_true_eq]
  exact eq_comm

theorem matchRep_eq_some (a : Atom) (n : Nat) (s rest : List Char) :
    matchRep a n s = some rest ↔
      ∃ body : List Char, s = body ++ rest ∧ body.length = n ∧ ∀ c ∈ body, a.test c = true := by
  induction n generalizing s with
  | zero =>
    simp only [matchRep, Option.some.injEq, List.length_eq_zero]
    constructor
    · intro h
      exact ⟨[], by simp [h], rfl, by simp⟩
    · rintro ⟨body, h1, h2, -⟩
      subst h2
      simpa using h1
  | succ n ih =>
    cases s with
    | nil =>
      simp only [matchRep]
      constructor
      · intro h
        cases h
      · rintro ⟨body, h1, h2, -⟩
        cases body with
        | nil => cases h2
        | cons b bs => cases h1
    | cons c s =>
      simp only [matchRep]
      by_cases hc : a.test c = true
      · rw [if_pos hc, ih]
        constructor
        · rintro ⟨body, h1, h2, h3⟩
          refine ⟨c :: body, by simp [h1], by simp [h2], ?_⟩
          intro d hd
          rcases List.mem_cons.mp hd with rfl | hd
          · exact hc
          · exact h3 d hd
        · rintro ⟨body, h1, h2, h3⟩
          cases body with
          | nil => cases h2
          | cons b bs =>
            simp only [List.cons_append, List.cons.injEq] at h1
            refine ⟨bs, h1.2, by simpa using h2, ?_⟩
            intro d hd
            exact h3 d (List.mem_cons_of_mem _ hd)
      · rw [if_neg hc]
        constructor
        · intro h
          cases h
        rintro ⟨body, h1, h2, h3⟩
        exfalso
        cases body with
        | nil => cases h2
        | cons b bs =>
          simp only [List.cons_append, List.cons.injEq] at h1
          exact hc (h1.1 ▸ h3 b (List.mem_cons_self _ _))

/-- A pattern `0x[a-fA-F0-9]{n}` anchored at both ends tests true exactly on the
strings `0x` followed by `n` hexadecimal characters. -/
theorem regexTest_hex (n : Nat) (s : String) :
    regexTest [⟨Atom.lit '0', 1⟩, ⟨Atom.lit 'x', 1⟩, ⟨hexClass, n⟩] s = true ↔
      IsHexString n s := by
  unfold regexTest IsHexString
  constructor
  · intro h
    cases h0 : matchRep (Atom.lit '0') 1 s.data with
    | none => simp [matchPieces, h0] at h
    | some r0 =>
      cases h1 : matchRep (Atom.lit 'x') 1 r0 with
      | none => simp [matchPieces, h0, h1] at h
      | some r1 =>
        cases h2 : matchRep hexClass n r1 with
        | none => simp [matchPieces, h0, h1, h2] at h
        | some r2 =>
          have hr2 : r2 = [] := by
            cases r2 with
            | nil => rfl
            | cons a b => simp [matchPieces, h0, h1, h2] at h
          subst hr2
          obtain ⟨b0, e0, l0, t0⟩ := (matchRep_eq_some _ _ _ _).mp h0
          obtain ⟨b1, e1, l1, t1⟩ := (matchRep_eq_some _ _ _ _).mp h1
          obtain ⟨b2, e2, l2, t2⟩ := (matchRep_eq_some _ _ _ _).mp h2
          obtain ⟨c0, rfl⟩ := List.length_eq_one.mp l0
          obtain ⟨c1, rfl⟩ := List.length_eq_one.mp l1
          have hc0 : c0 = '0' := (lit_test _ _).mp (t0 c0 (List.mem_singleton_self _))
          have hc1 : c1 = 'x' := (lit_test _ _).mp (t1 c1 (List.mem_singleton_self _))
          refine ⟨b2, ?_, l2, fun c hc => (hexClass_test c).mp (t2 c hc)⟩
          rw [e0, e1, e2, hc0, hc1]
          simp
  · rintro ⟨body, hs, hl, hb⟩
    have h2 : matchRep hexClass n body = some [] :=
      (matchRep_eq_some _ _ _ _).mpr
        ⟨body, by simp, hl, fun c hc => (hexClass_test c).mpr (hb c hc)⟩
    simp [matchPieces, hs, matchRep, Atom.test, h2]

/-- The shape `0x` + hex characters is never the empty string. -/
theorem IsHexString.truthy {n : Nat} {s : String} (h : IsHexString n s) :
    truthyStr s = true := by
  obtain ⟨body, hs, -, -⟩ := h
  simp [truthyStr, hs]

/-! ## Validators -/

/-- Claim C1. For every string `s`, the address validator shared by
`handleAnalyzeAddress` and `handleAnalyzeContract` accepts `s` (the handler goes
on to its API call, with `s` as argument) if and only if `s` is exactly `0x`
followed by exactly 40 characters in `0-9`, `a-f`, `A-F`; the empty string is
rejected by both handlers. -/
theorem address_validator_iff (s : String) :
    ((handleAnalyzeAddress s).accepted = true ↔ IsHexString 40 s) ∧
    ((handleAnalyzeContract s).accepted = true ↔ IsHexString 40 s) ∧
    (handleAnalyzeAddress s = Outcome.callApi "analyzeBlockchainAddress" s ↔ IsHexString 40 s) ∧
    (handleAnalyzeContract s = Outcome.callApi "analyzeContract" s ↔ IsHexString 40 s) ∧
    (handleAnalyzeAddress "").accepted = false ∧
    (handleAnalyzeContract "").accepted = false := by
  have key := regexTest_hex 40 s
  refine ⟨?_, ?_, ?_, ?_, rfl, rfl⟩ <;>
  · by_cases h : IsHexString 40 s
    · have ht := h.truthy
      have hr : regexTest addressPattern s = true := key.mpr h
      simp [handleAnalyzeAddress, handleAnalyzeContract, ht, hr, h, Outcome.accepted]
    · have hr : regexTest addressPattern s = false := by
        cases hb : regexTest addressPattern s with
        | false => rfl
        | true => exact absurd (key.mp hb) h
      by_cases ht : truthyStr s = true
      · simp [handleAnalyzeAddress, handleAnalyzeContract, ht, hr, h, Outcome.accepted]
      · simp [handleAnalyzeAddress, handleAnalyzeContract, ht, h, Outcome.accepted]

/-- Claim C2. For every string `s`, the transaction hash validator of
`handleGetTransaction` accepts `s` (the handler goes on to `getTransaction(s)`)
if and only if `s` is exactly `0x` followed by exactly 64 hexadecimal
characters; every other string, the empty one included, is rejected. -/
theorem txhash_validator_iff (s : String) :
    ((handleGetTransaction s).accepted = true ↔ IsHexString 64 s) ∧
    (handleGetTransaction s = Outcome.callApi "getTransaction" s ↔ IsHexString 64 s) ∧
    (handleGetTransaction "").accepted = false := by
  have key := regexTest_hex 64 s
  refine ⟨?_, ?_, rfl⟩ <;>
  · by_cases h : IsHexString 64 s
    · have ht := h.truthy
      have hr : regexTest txHashPattern s = true := key.mpr h
      simp [handleGetTransaction, ht, hr, h, Outcome.accepted]
    · have hr : regexTest txHashPattern s = false := by
        cases hb : regexTest txHashPattern s with
        | false => rfl
        | true => exact absurd (key.mp hb) h
      by_cases ht : truthyStr s = true
      · simp [handleGetTransaction, ht, hr, h, Outcome.accepted]
      · simp [handleGetTransaction, ht, h, Outcome.accepted]

/-- The validators evaluated on sample inputs: a well-formed address and hash
pass, a trailing newline, an upper-case `0X` and a short hash do not. -/
theorem validators_examples :
    handleAnalyzeAddress "0x52908400098527886E0F7030069857D2E4169EE7" =
      Outcome.callApi "analyzeBlockchainAddress" "0x52908400098527886E0F7030069857D2E4169EE7" ∧
    handleAnalyzeAddress "0x52908400098527886E0F7030069857D2E4169EE7\n" =
      Outcome.toastError "Invalid Ethereum address format" ∧
    handleAnalyzeContract "0X52908400098527886E0F7030069857D2E4169EE7" =
      Outcome.toastError "Invalid contract address format" ∧
    handleGetTransaction "0xabc" = Outcome.toastError "Invalid transaction hash format" ∧
    handleGetTransaction "" = Outcome.toastError "Please enter a transaction hash" := by
  decide

/-! ## Task store -/

/-- Claim C3. For every task store state (an object, so no key twice),
`clearCompletedTasks` yields the mapping that holds exactly the entries of the
previous mapping whose status is neither `SUCCESS` nor `FAILURE`, each under
its key with its value unchanged (it is the previous entry list filtered); on a
store whose statuses are all `PENDING`, `SUCCESS` or `FAILURE` it holds exactly
the `PENDING` entries. -/
theorem clearCompletedTasks_spec (state : TaskStore) (hwf : Dict.WF state.tasks) :
    (clearCompletedTasks state).tasks = state.tasks.filter (fun e => notCompleted e.2) ∧
    Dict.WF (clearCompletedTasks state).tasks ∧
    (∀ (id : String) (task : Obj),
      Dict.lookup (clearCompletedTasks state).tasks id = some task ↔
        Dict.lookup state.tasks id = some task ∧
          Obj.get task "status" ≠ Val.str "SUCCESS" ∧
          Obj.get task "status" ≠ Val.str "FAILURE") ∧
    ((∀ e ∈ state.tasks,
        Obj.get e.2 "status" = Val.str "PENDING" ∨ Obj.get e.2 "status" = Val.str "SUCCESS" ∨
          Obj.get e.2 "status" = Val.str "FAILURE") →
      (clearCompletedTasks state).tasks =
          state.tasks.filter (fun e => strictEq (Obj.get e.2 "status") (Val.str "PENDING")) ∧
      ∀ (id : String) (task : Obj),
        Dict.lookup (clearCompletedTasks state).tasks id = some task ↔
          Dict.lookup state.tasks id = some task ∧ Obj.get task "status" = Val.str "PENDING") := by
  have hlist : (clearCompletedTasks state).tasks =
      state.tasks.filter (fun e => notCompleted e.2) := by
    unfold clearCompletedTasks
    simpa using clearCompleted_loop state.tasks [] (by simp) hwf
  have hlook : ∀ (id : String) (task : Obj),
      Dict.lookup (clearCompletedTasks state).tasks id = some task ↔
        Dict.lookup state.tasks id = some task ∧
          Obj.get task "status" ≠ Val.str "SUCCESS" ∧
          Obj.get task "status" ≠ Val.str "FAILURE" := by
    intro id task
    rw [hlist, Dict.lookup_filter _ notCompleted _ hwf, ← notCompleted_iff]
    cases h : Dict.lookup state.tasks id with
    | none => simp [Option.filter]
    | some t =>
      by_cases hp : notCompleted t = true
      · simp only [Option.filter, hp, if_true, Option.some.injEq]
        constructor
        · rintro rfl
          exact ⟨rfl, hp⟩
        · exact fun h => h.1
      · simp only [Option.filter, hp, Option.some.injEq]
        constructor
        · intro h
          cases h
        · rintro ⟨rfl, hp'⟩
          exact absurd hp' hp
  refine ⟨hlist, ?_, hlook, ?_⟩
  · rw [hlist]
    exact (List.Nodup.sublist (List.Sublist.map _ (List.filter_sublist _)) hwf)
  · intro hall
    have hpend : ∀ e ∈ state.tasks,
        notCompleted e.2 = strictEq (Obj.get e.2 "status") (Val.str "PENDING") := by
      intro e he
      rcases hall e he with h | h | h <;> simp [notCompleted, strictEq, h]
    refine ⟨?_, ?_⟩
    · rw [hlist]
      exact List.filter_congr hpend
    · intro id task
      rw [hlook]
      constructor
      · rintro ⟨h1, h2, h3⟩
        refine ⟨h1, ?_⟩
        have hmem : (id, task) ∈ state.tasks := Dict.mem_of_lookup _ _ _ h1
        rcases hall _ hmem with h | h | h
        · exact h
        · exact absurd h h2
        · exact absurd h h3
      · rintro ⟨h1, h2⟩
        exact ⟨h1, by simp [h2], by simp [h2]⟩

/-- Witness of `clearCompletedTasks_spec` on a store with one `PENDING`, one
`SUCCESS` and one `FAILURE` task: only the pending one is kept. -/
theorem clearCompletedTasks_spec_witness :
    Dict.WF mixedTasks.tasks ∧
    (clearCompletedTasks mixedTasks).tasks = [("t1", [("status", Val.str "PENDING")])] ∧
    (clearCompletedTasks mixedTasks).tasks =
      mixedTasks.tasks.filter (fun e => notCompleted e.2) :=
  ⟨by decide, by decide, (clearCompletedTasks_spec mixedTasks (by decide)).1⟩

/-! ## File store -/

/-- Claim C4, as stated, fails: on a store that already holds an entry with the
id of `f`, `addFile(f)` followed by `removeFile(f.file_id)` removes that older
entry too, so the store is not back in its previous state. -/
theorem addFile_removeFile_counterexample :
    removeFile (fileIdOf fileA) (addFile fileA storeA) ≠ storeA ∧
    (removeFile (fileIdOf fileA) (addFile fileA storeA)).files = [] ∧
    storeA.files = [fileA2] := by
  decide

/-- Claim C4, amended. `addFile(f)` followed by `removeFile(f.file_id)` gives
back the previous file store (files in order, selectedFile, uploadProgress)
exactly when no entry of the previous files list has the `file_id` of `f` and
the selected file, if any, does not have it either. -/
theorem addFile_removeFile_roundtrip_iff (s : FileStore) (f : Obj) :
    removeFile (fileIdOf f) (addFile f s) = s ↔
      (∀ g ∈ s.files, fileIdOf g ≠ fileIdOf f) ∧
      (∀ sel : Obj, s.selectedFile = some sel → fileIdOf sel ≠ fileIdOf f) := by
  obtain ⟨files, selected, progress⟩ := s
  simp only [removeFile, addFile, FileStore.mk.injEq, and_true, List.filter_cons, strictEq,
    decide_True, Bool.not_true, Bool.false_eq_true, if_false, decide_eq_true_eq]
  constructor
  · rintro ⟨hfiles, hsel⟩
    constructor
    · intro g hg
      have := (List.filter_eq_self.mp hfiles) g hg
      simpa using this
    · intro sel hs
      subst hs
      intro heq
      simp [selectedFileId, heq] at hsel
  · rintro ⟨hfiles, hsel⟩
    constructor
    · apply List.filter_eq_self.mpr
      intro g hg
      simpa using hfiles g hg
    · cases selected with
      | none => simp
      | some sel =>
        have := hsel sel rfl
        simp [selectedFileId, this]

/-- Claim C5. For every file store state and id, `updateFile(id, {status:
'completed'})` yields a files list of the same length in which, position by
position, an entry whose `file_id` is `id` has `status` equal to `completed` and
every other field as before, and an entry with another `file_id` is unchanged;
selectedFile and uploadProgress are untouched. -/
theorem updateFile_status_frame (s : FileStore) (id : Val) :
    (updateFile id [("status", Val.str "completed")] s).files.length = s.files.length ∧
    (∀ (i : Nat) (f : Obj), s.files[i]? = some f →
      ∃ f' : Obj, (updateFile id [("status", Val.str "completed")] s).files[i]? = some f' ∧
        (fileIdOf f = id →
          Dict.lookup f' "status" = some (Val.str "completed") ∧
          ∀ k : String, k ≠ "status" → Dict.lookup f' k = Dict.lookup f k) ∧
        (fileIdOf f ≠ id → f' = f)) ∧
    (updateFile id [("status", Val.str "completed")] s).selectedFile = s.selectedFile ∧
    (updateFile id [("status", Val.str "completed")] s).uploadProgress = s.uploadProgress := by
  refine ⟨by simp [updateFile], ?_, rfl, rfl⟩
  intro i f hf
  refine ⟨if strictEq (fileIdOf f) id then Dict.spread f [("status", Val.str "completed")] else f,
    by simp [updateFile, hf], ?_, ?_⟩
  · intro hid
    have hs : strictEq (fileIdOf f) id = true := (strictEq_iff _ _).mpr hid
    rw [if_pos hs]
    constructor
    · simp [Dict.spread, Dict.lookup_set]
    · intro k hk
      have hk' : ¬ "status" = k := fun e => hk e.symm
      simp [Dict.spread, Dict.lookup_set, hk']
  · intro hid
    have hs : ¬ strictEq (fileIdOf f) id = true := fun h => hid ((strictEq_iff _ _).mp h)
    rw [if_neg hs]

/-- Claim C6, as stated, fails: the store holds one entry with id `a`, and
`addFile` of another record with id `a` prepends it without replacing the old
one, so two entries share a `file_id`. -/
theorem addFile_duplicate_counterexample :
    FilesUnique storeA.files ∧
    fileIdOf fileA = fileIdOf fileA2 ∧
    (addFile fileA storeA).files = [fileA, fileA2] ∧
    ¬ FilesUnique (addFile fileA storeA).files := by
  decide

/-- Claim C6, amended. Uniqueness of `file_id` is kept, not enforced: from a
files list without two entries of the same `file_id`, `removeFile` yields such
a list, `updateFile` does when `updates` has no `file_id` field, `addFile(f)`
does exactly when no entry already has the `file_id` of `f`, and
`setFiles(list)` does exactly when `list` itself has no repeated `file_id`. -/
theorem filesUnique_preserved (s : FileStore) (hu : FilesUnique s.files) :
    (∀ id : Val, FilesUnique (removeFile id s).files) ∧
    (∀ (id : Val) (updates : Obj), Dict.lookup updates "file_id" = none →
      FilesUnique (updateFile id updates s).files) ∧
    (∀ f : Obj, FilesUnique (addFile f s).files ↔ ∀ g ∈ s.files, fileIdOf g ≠ fileIdOf f) ∧
    (∀ list : List Obj, FilesUnique (setFiles list s).files ↔ FilesUnique list) := by
  refine ⟨?_, ?_, ?_, ?_⟩
  · intro id
    exact List.Nodup.sublist (List.Sublist.map _ (List.filter_sublist _)) hu
  · intro id updates hnone
    have hmap : ((updateFile id updates s).files).map fileIdOf = s.files.map fileIdOf := by
      simp only [updateFile, List.map_map]
      apply List.map_congr_left
      intro f _
      by_cases hs : strictEq (fileIdOf f) id = true
      · simp [hs, fileIdOf_spread f updates hnone]
      · simp [hs]
    unfold FilesUnique
    rw [hmap]
    exact hu
  · intro f
    unfold FilesUnique at hu ⊢
    simp only [addFile, List.map_cons, List.nodup_cons, List.mem_map, not_exists, not_and]
    constructor
    · intro h g hg
      exact h.1 g hg
    · intro h
      exact ⟨fun g hg => h g hg, hu⟩
  · intro list
    rfl

/-- Witness of `filesUnique_preserved` on the store holding the record `b`. -/
theorem filesUnique_preserved_witness :
    FilesUnique storeB.files ∧
    FilesUnique (removeFile (Val.str "b") storeB).files ∧
    FilesUnique (addFile fileA storeB).files :=
  ⟨by decide, (filesUnique_preserved storeB (by decide)).1 (Val.str "b"),
    ((filesUnique_preserved storeB (by decide)).2.2.1 fileA).mpr (by decide)⟩

/-! ## Interceptors -/

/-- The interceptor on sample storage contents: a stored token `abc` gives
the header `Bearer abc`; with no token, and with the empty string (falsy, so no
token for `if (token)`), no header is added. -/
theorem requestInterceptor_examples :
    Dict.lookup (requestInterceptor [("token", "abc")] plainConfig).headers "Authorization" =
      some (Val.str "Bearer abc") ∧
    Dict.lookup (requestInterceptor [] plainConfig).headers "Authorization" = none ∧
    Dict.lookup (requestInterceptor [("token", "")] plainConfig).headers "Authorization" =
      none := by
  decide

/-- Claim C7. For every request config and storage content: when a token is
present in storage, which the source tests with `if (token)`, so when the
stored value is a non-empty string, the interceptor sets the Authorization
header to `Bearer ` followed by the token and leaves every other header as it
was; when no token is present (nothing stored, or the empty string) the config
is returned as it is, so no Authorization header is added; method, url, params
and data are unchanged in every case. -/
theorem requestInterceptor_spec {β : Type} (localStorage : Dict String)
    (config : RequestConfig β) :
    (∀ token : String, Dict.lookup localStorage "token" = some token → token ≠ "" →
      Dict.lookup (requestInterceptor localStorage config).headers "Authorization" =
          some (Val.str ("Bearer " ++ token)) ∧
      ∀ k : String, k ≠ "Authorization" →
        Dict.lookup (requestInterceptor localStorage config).headers k =
          Dict.lookup config.headers k) ∧
    (Dict.lookup localStorage "token" = none ∨ Dict.lookup localStorage "token" = some "" →
      requestInterceptor localStorage config = config) ∧
    (requestInterceptor localStorage config).method = config.method ∧
    (requestInterceptor localStorage config).url = config.url ∧
    (requestInterceptor localStorage config).params = config.params ∧
    (requestInterceptor localStorage config).data = config.data := by
  refine ⟨?_, ?_, ?_, ?_, ?_, ?_⟩
  · intro token hl hne
    have ht : truthyStr token = true := (truthyStr_iff token).mpr hne
    simp only [requestInterceptor, hl, ht, if_true, Dict.lookup_set]
    refine ⟨by simp, ?_⟩
    intro k hk
    have hk' : ¬ "Authorization" = k := fun e => hk e.symm
    simp [hk']
  · rintro (h | h)
    · simp [requestInterceptor, h]
    · have ht : truthyStr "" = false := rfl
      simp [requestInterceptor, h, ht]
  all_goals
    unfold requestInterceptor
    cases Dict.lookup localStorage "token" with
    | none => rfl
    | some token =>
      by_cases ht : truthyStr token = true
      · simp [ht]
      · simp [ht]

/-- Claim C8. For every error whose response has status 401 and every browser
state, the response interceptor removes the stored token (other storage keys
stay), sets the location to `/login`, and rejects with the original error. -/
theorem responseRejected_401 (error : AxiosError) (env : Browser) (r : Response)
    (hr : error.response = some r) (hs : r.status = Val.num 401) :
    Dict.lookup (responseRejected error env).1.localStorage "token" = none ∧
    (∀ k : String, k ≠ "token" →
      Dict.lookup (responseRejected error env).1.localStorage k =
        Dict.lookup env.localStorage k) ∧
    (responseRejected error env).1.href = "/login" ∧
    (responseRejected error env).2 = Except.error error := by
  have h401 : strictEq (errorStatus error) (Val.num 401) = true := by
    simp [errorStatus, hr, hs, strictEq]
  simp only [responseRejected, h401, if_true, Dict.lookup_erase, and_true, true_and]
  intro k hk
  have hk' : ¬ "token" = k := fun e => hk e.symm
  simp [hk']

/-- Witness of `responseRejected_401`: a logged-in session hit by a 401. -/
theorem responseRejected_401_witness :
    Dict.lookup (responseRejected error401 loggedIn).1.localStorage "token" = none ∧
    (responseRejected error401 loggedIn).1.href = "/login" ∧
    (responseRejected error401 loggedIn).2 = Except.error error401 :=
  ⟨(responseRejected_401 error401 loggedIn ⟨Val.num 401, []⟩ rfl rfl).1,
   (responseRejected_401 error401 loggedIn ⟨Val.num 401, []⟩ rfl rfl).2.2.1,
   (responseRejected_401 error401 loggedIn ⟨Val.num 401, []⟩ rfl rfl).2.2.2⟩

/-- Claim C9. For every error whose status is not 401, and for every error that
carries no response at all, the response interceptor leaves the stored token
and the location unchanged and rejects with the original error; every
successful response is returned unchanged and the browser state is untouched.
The session `loggedIn` hit by a 500 keeps its token. -/
theorem responseRejected_other (error : AxiosError) (env : Browser) :
    (errorStatus error ≠ Val.num 401 →
      responseRejected error env = (env, Except.error error)) ∧
    (error.response = none → responseRejected error env = (env, Except.error error)) ∧
    (∀ response : Response, responseFulfilled response env = (env, Except.ok response)) ∧
    responseRejected error500 loggedIn = (loggedIn, Except.error error500) := by
  refine ⟨?_, ?_, fun _ => rfl, rfl⟩
  · intro h
    have hs : strictEq (errorStatus error) (Val.num 401) = false := by
      simpa [strictEq] using h
    simp [responseRejected, hs]
  · intro h
    have hs : strictEq (errorStatus error) (Val.num 401) = false := by
      simp [errorStatus, h, strictEq]
    simp [responseRejected, hs]

/-! ## Upload progress -/

/-- Claim C10. For every upload with a fixed `total > 0` and progress events
whose `loaded` values are non-decreasing and at most `total`, `onProgress`
receives, event by event, the quotient `loaded * 100 / total` rounded to the
nearest integer with a half rounded up; these values are integers between 0
and 100 and form a non-decreasing sequence. Without a callback nothing is
reported. -/
theorem progress_percent_monotone (total : Nat) (loadeds : List Nat) (ht : 0 < total)
    (hsorted : loadeds.Pairwise (fun a b => a ≤ b)) (hle : ∀ l ∈ loadeds, l ≤ total) :
    progressCalls true (loadeds.map (fun l => ProgressEvent.mk l total)) =
      loadeds.map (fun l => some ⌊(((l * 100 : ℕ) : ℚ) / (total : ℚ) + 1 / 2)⌋₊) ∧
    (∀ l ∈ loadeds, ⌊(((l * 100 : ℕ) : ℚ) / (total : ℚ) + 1 / 2)⌋₊ ≤ 100) ∧
    (loadeds.map (fun l => ⌊(((l * 100 : ℕ) : ℚ) / (total : ℚ) + 1 / 2)⌋₊)).Pairwise
      (fun p q => p ≤ q) ∧
    progressCalls false (loadeds.map (fun l => ProgressEvent.mk l total)) = [] := by
  have hne : ¬ total = 0 := by omega
  refine ⟨?_, ?_, ?_, ?_⟩
  · simp only [progressCalls, if_true, List.filterMap_map]
    rw [← List.filterMap_eq_map]
    apply List.filterMap_congr
    intro l _
    simp [percentCompleted, hne, roundHalfUp_eq_floor (l * 100) total ht]
  · intro l hl
    rw [← roundHalfUp_eq_floor (l * 100) total ht]
    exact roundPercent_le total l ht (hle l hl)
  · rw [List.pairwise_map]
    refine hsorted.imp ?_
    intro a b hab
    rw [← roundHalfUp_eq_floor (a * 100) total ht, ← roundHalfUp_eq_floor (b * 100) total ht]
    exact roundPercent_mono total a b hab
  · simp [progressCalls]

/-- Witness of `progress_percent_monotone`: a 3-byte upload reported at 0, 1, 2
and 3 bytes gives 0, 33, 67 and 100. -/
theorem progress_percent_monotone_witness :
    progressCalls true ([0, 1, 2, 3].map (fun l => ProgressEvent.mk l 3)) =
      [some 0, some 33, some 67, some 100] ∧
    progressCalls true ([0, 1, 2, 3].map (fun l => ProgressEvent.mk l 3)) =
      [0, 1, 2, 3].map (fun l => some ⌊(((l * 100 : ℕ) : ℚ) / ((3 : ℕ) : ℚ) + 1 / 2)⌋₊) :=
  ⟨by decide,
   (progress_percent_monotone 3 [0, 1, 2, 3] (by decide) (by decide) (by decide)).1⟩

/-! ## Scraping page -/

theorem splitAtLF_ne_nil (l : List Char) : splitAtLF l ≠ [] := by
  cases l with
  | nil => simp [splitAtLF]
  | cons c cs =>
    by_cases hc : c = '\n'
    · simp [splitAtLF, hc]
    · cases h : splitAtLF cs <;> simp [splitAtLF, hc, h]

/-- Joining the pieces of `splitAtLF` with line feeds gives the input back. -/
theorem splitAtLF_intercalate (l : List Char) :
    List.intercalate ['\n'] (splitAtLF l) = l := by
  induction l with
  | nil => simp [splitAtLF, List.intercalate]
  | cons c cs ih =>
    by_cases hc : c = '\n'
    · cases h : splitAtLF cs with
      | nil => exact absurd h (splitAtLF_ne_nil cs)
      | cons r rs =>
        rw [h] at ih
        simp only [splitAtLF, hc, if_true, h]
        simp only [List.intercalate, List.intersperse, List.flatten_cons, List.nil_append,
          List.singleton_append] at ih ⊢
        rw [ih]
    · cases h : splitAtLF cs with
      | nil => exact absurd h (splitAtLF_ne_nil cs)
      | cons r rs =>
        rw [h] at ih
        simp only [splitAtLF, hc, if_false, h]
        cases rs with
        | nil =>
          simp only [List.intercalate, List.intersperse, List.flatten_cons, List.flatten_nil,
            List.append_nil] at ih ⊢
          rw [ih]
        | cons r2 rs2 =>
          simp only [List.intercalate, List.intersperse, List.flatten_cons, List.cons_append] at ih ⊢
          rw [ih]

/-- No piece of `splitAtLF` holds a line feed. -/
theorem splitAtLF_no_LF (l : List Char) : ∀ piece ∈ splitAtLF l, '\n' ∉ piece := by
  induction l with
  | nil => simp [splitAtLF]
  | cons c cs ih =>
    by_cases hc : c = '\n'
    · intro piece hp
      simp only [splitAtLF, hc, if_true, List.mem_cons] at hp
      rcases hp with rfl | hp
      · simp
      · exact ih piece hp
    · cases h : splitAtLF cs with
      | nil => exact absurd h (splitAtLF_ne_nil cs)
      | cons r rs =>
        rw [h] at ih
        intro piece hp
        simp only [splitAtLF, hc, if_false, h, List.mem_cons] at hp
        rcases hp with rfl | hp
        · intro hmem
          rcases List.mem_cons.mp hmem with e | hmem
          · exact hc e.symm
          · exact ih r (List.mem_cons_self _ _) hmem
        · exact ih piece (List.mem_cons_of_mem _ hp)

/-- A trimmed line is non-empty exactly when the line is not blank. -/
theorem truthy_jsTrim (l : String) : truthyStr (jsTrim l) = !isBlankLine l := by
  have key : ((l.data.dropWhile isJsSpace).reverse.dropWhile isJsSpace).reverse = [] ↔
      ∀ c ∈ l.data, isJsSpace c = true := by
    rw [List.reverse_eq_nil_iff, List.dropWhile_eq_nil_iff]
    constructor
    · intro h
      have hnil : l.data.dropWhile isJsSpace = [] := by
        cases hd : l.data.dropWhile isJsSpace with
        | nil => rfl
        | cons x xs =>
          have hx : isJsSpace x = true := h x (by simp [hd])
          have hhead := List.head_dropWhile_not isJsSpace l.data (by simp [hd])
          simp [hd, hx] at hhead
      exact List.dropWhile_eq_nil_iff.mp hnil
    · intro h
      have hnil : l.data.dropWhile isJsSpace = [] := List.dropWhile_eq_nil_iff.mpr h
      simp [hnil]
  by_cases hb : ∀ c ∈ l.data, isJsSpace c = true
  · have h1 := key.mpr hb
    have h2 : l.data.all isJsSpace = true := List.all_eq_true.mpr hb
    simp [truthyStr, jsTrim, isBlankLine, h1, h2]
  · have h1 : ¬ ((l.data.dropWhile isJsSpace).reverse.dropWhile isJsSpace).reverse = [] :=
      fun h => hb (key.mp h)
    have h2 : l.data.all isJsSpace = false := by
      cases hall : l.data.all isJsSpace with
      | false => rfl
      | true => exact absurd (List.all_eq_true.mp hall) hb
    simp only [truthyStr, jsTrim, isBlankLine, h2, Bool.not_false]
    cases h3 : ((l.data.dropWhile isJsSpace).reverse.dropWhile isJsSpace).reverse with
    | nil => exact absurd h3 h1
    | cons x xs => rfl

/-- Claim C11. For every text of the multi-scrape form: the lines are the
pieces of the text between line feeds (joined by line feeds they give the text
back, and none holds a line feed); the URL list is exactly the lines that are
not blank, in their order; with an empty list the handler reports an error and
calls nothing, otherwise it calls `scrapeMultiple` with exactly that list. -/
theorem handleMultipleScrape_spec (st : ScrapingState) :
    List.intercalate ['\n'] ((jsSplitLines st.multipleUrls).map String.data) =
      st.multipleUrls.data ∧
    (∀ l ∈ jsSplitLines st.multipleUrls, '\n' ∉ l.data) ∧
    scrapeUrlList st = (jsSplitLines st.multipleUrls).filter (fun l => !isBlankLine l) ∧
    (scrapeUrlList st = [] →
      handleMultipleScrape st = ScrapeAction.toastError "Please enter at least one URL") ∧
    (scrapeUrlList st ≠ [] →
      handleMultipleScrape st = ScrapeAction.scrapeMultiple (scrapeUrlList st) st.method) := by
  refine ⟨?_, ?_, ?_, ?_, ?_⟩
  · have hmap : (jsSplitLines st.multipleUrls).map String.data = splitAtLF st.multipleUrls.data := by
      simp [jsSplitLines, List.map_map, Function.comp_def]
    rw [hmap]
    exact splitAtLF_intercalate _
  · intro l hl
    simp only [jsSplitLines, List.mem_map] at hl
    obtain ⟨piece, hp, rfl⟩ := hl
    exact splitAtLF_no_LF _ piece hp
  · unfold scrapeUrlList
    apply List.filter_congr
    intro l _
    exact truthy_jsTrim l
  · intro h
    simp [handleMultipleScrape, h]
  · intro h
    simp [handleMultipleScrape, h]

/-- The handler evaluated on a text with blank lines between two URLs, and on
a text of blank lines only. -/
theorem handleMultipleScrape_examples :
    handleMultipleScrape { initialScraping with multipleUrls := "http://a\n  \n\nhttp://b \n" } =
      ScrapeAction.scrapeMultiple ["http://a", "http://b "] "requests" ∧
    handleMultipleScrape { initialScraping with multipleUrls := " \n\t\n" } =
      ScrapeAction.toastError "Please enter at least one URL" := by
  decide

/-- Claim C12. Every transaction hash that is not `0x` followed by 64
hexadecimal characters is rejected locally: the handler reports an error and
issues no request (in particular none to `/blockchain/transaction`); every
malformed address is rejected in the same way by both address handlers, before
`analyzeBlockchainAddress` or `analyzeContract` is called; a well-formed hash
does reach `/blockchain/transaction`. The hash `0xabc` is rejected. -/
theorem malformed_rejected_locally (s : String) :
    (¬ IsHexString 64 s →
      (handleGetTransaction s = Outcome.toastError "Please enter a transaction hash" ∨
        handleGetTransaction s = Outcome.toastError "Invalid transaction hash format") ∧
      (handleGetTransaction s).requests = []) ∧
    (¬ IsHexString 40 s →
      (handleAnalyzeAddress s = Outcome.toastError "Please enter an Ethereum address" ∨
        handleAnalyzeAddress s = Outcome.toastError "Invalid Ethereum address format") ∧
      (handleAnalyzeAddress s).requests = [] ∧
      (handleAnalyzeContract s = Outcome.toastError "Please enter a contract address" ∨
        handleAnalyzeContract s = Outcome.toastError "Invalid contract address format") ∧
      (handleAnalyzeContract s).requests = []) ∧
    (IsHexString 64 s →
      (handleGetTransaction s).requests = [("POST", "/blockchain/transaction")]) ∧
    handleGetTransaction "0xabc" = Outcome.toastError "Invalid transaction hash format" ∧
    (handleGetTransaction "0xabc").requests = [] := by
  refine ⟨?_, ?_, ?_, by decide, by decide⟩
  · intro h
    have hr : regexTest txHashPattern s = false := by
      cases hb : regexTest txHashPattern s with
      | false => rfl
      | true => exact absurd ((regexTest_hex 64 s).mp hb) h
    by_cases ht : truthyStr s = true
    · simp [handleGetTransaction, ht, hr, Outcome.requests]
    · simp [handleGetTransaction, ht, Outcome.requests]
  · intro h
    have hr : regexTest addressPattern s = false := by
      cases hb : regexTest addressPattern s with
      | false => rfl
      | true => exact absurd ((regexTest_hex 40 s).mp hb) h
    by_cases ht : truthyStr s = true
    · simp [handleAnalyzeAddress, handleAnalyzeContract, ht, hr, Outcome.requests]
    · simp [handleAnalyzeAddress, handleAnalyzeContract, ht, Outcome.requests]
  · intro h
    have ht := h.truthy
    have hr : regexTest txHashPattern s = true := (regexTest_hex 64 s).mpr h
    simp [handleGetTransaction, ht, hr, Outcome.requests, apiEndpoint]

/-- Claim C13 fails on the code: `handleCrawl` checks only the start URL. With
9 typed into Max Depth and 5000 into Max Pages the call is
`crawlWebsite(url, 9, 5000)`, and with both fields cleared the two arguments
are `NaN`; whatever the form state holds is passed on. -/
theorem handleCrawl_out_of_range :
    handleCrawl (onMaxPagesChange "5000" (onMaxDepthChange "9"
        (onCrawlUrlChange "https://example.com" initialScraping))) =
      ScrapeAction.crawlWebsite "https://example.com" (some 9) (some 5000) ∧
    handleCrawl (onMaxPagesChange "" (onMaxDepthChange ""
        (onCrawlUrlChange "https://example.com" initialScraping))) =
      ScrapeAction.crawlWebsite "https://example.com" none none ∧
    (∀ st : ScrapingState, st.crawlUrl ≠ "" →
      handleCrawl st = ScrapeAction.crawlWebsite st.crawlUrl st.maxDepth st.maxPages) := by
  refine ⟨by decide, by decide, ?_⟩
  intro st h
  have ht : truthyStr st.crawlUrl = true := (truthyStr_iff _).mpr h
  simp [handleCrawl, ht]

/-! ## Upload page -/

/-- The progress callback keeps the ids of the tasks. -/
theorem reportProgress_ids (uploadId : Int) (page : UploadPage) (progress : Option Nat) :
    (reportProgress uploadId page progress).uploadingFiles.map UploadTask.id =
      page.uploadingFiles.map UploadTask.id := by
  simp only [reportProgress, List.map_map]
  apply List.map_congr_left
  intro f _
  by_cases h : f.id = uploadId <;> simp [h]

/-- The progress callback touches neither the file store nor the toasts. -/
theorem reportProgress_frame (uploadId : Int) (page : UploadPage) (progress : Option Nat) :
    (reportProgress uploadId page progress).fileStore = page.fileStore ∧
    (reportProgress uploadId page progress).toasts = page.toasts :=
  ⟨rfl, rfl⟩

/-- A run of progress callbacks keeps the task ids, the file store and the toasts. -/
theorem foldl_reportProgress (uploadId : Int) (ps : List (Option Nat)) (page : UploadPage) :
    (ps.foldl (reportProgress uploadId) page).uploadingFiles.map UploadTask.id =
        page.uploadingFiles.map UploadTask.id ∧
    (ps.foldl (reportProgress uploadId) page).fileStore = page.fileStore ∧
    (ps.foldl (reportProgress uploadId) page).toasts = page.toasts := by
  induction ps generalizing page with
  | nil => exact ⟨rfl, rfl, rfl⟩
  | cons p ps ih =>
    simp only [List.foldl_cons]
    obtain ⟨h1, h2, h3⟩ := ih (reportProgress uploadId page p)
    exact ⟨h1.trans (reportProgress_ids uploadId page p), h2, h3⟩

/-- Claim C14, as stated, fails: the upload response describes the new file
with status `uploaded`, both calls resolve, and the record put at the front of
the file store is that response, still with status `uploaded`; the result of
the analyze call is not used. -/
theorem handleUpload_status_counterexample :
    (handleUpload 1700 smallFile [⟨1, 3⟩, ⟨3, 3⟩] (Except.ok uploadOk) (Except.ok analyzeOk)
      emptyUploadPage).fileStore.files = [fileA] ∧
    Obj.get fileA "status" = Val.str "uploaded" ∧
    Obj.get fileA "status" ≠ Val.str "completed" := by
  decide

/-- Claim C14, amended. For every upload in which both the upload call and the
analyze call resolve, `handleUpload` adds exactly one record to the front of
the file store: the data of the upload response, as received. Its status is
`completed` exactly when the upload response said so; the rest of the file
store is unchanged. -/
theorem handleUpload_adds_response (uploadId : Int) (file : LocalFile)
    (events : List ProgressEvent) (response analysis : Response) (page : UploadPage) :
    (handleUpload uploadId file events (Except.ok response) (Except.ok analysis)
      page).fileStore = addFile response.data page.fileStore ∧
    (handleUpload uploadId file events (Except.ok response) (Except.ok analysis)
      page).fileStore.files = response.data :: page.fileStore.files ∧
    ((handleUpload uploadId file events (Except.ok response) (Except.ok analysis)
      page).fileStore.files.head?.map (fun f => Obj.get f "status") =
        some (Val.str "completed") ↔ Obj.get response.data "status" = Val.str "completed") := by
  have hfs : (uploadResolved uploadId file events page).fileStore = page.fileStore := by
    unfold uploadResolved
    exact (foldl_reportProgress uploadId (progressCalls true events)
      (startUpload uploadId file page)).2.1
  have h1 : (handleUpload uploadId file events (Except.ok response) (Except.ok analysis)
      page).fileStore = addFile response.data page.fileStore := by
    simp [handleUpload, markSuccess, hfs]
  refine ⟨h1, ?_, ?_⟩
  · rw [h1]
    rfl
  · rw [h1]
    simp [addFile]

/-- A call of `handleUpload` run on its own is the session of its steps. -/
theorem handleUpload_eq_run (uploadId : Int) (file : LocalFile) (events : List ProgressEvent)
    (uploadResult analyzeResult : Except AxiosError Response) (s : UploadSession) :
    (runUploads s (callEvents uploadId file events uploadResult analyzeResult)).page =
      handleUpload uploadId file events uploadResult analyzeResult s.page := by
  have hprog : ∀ (ps : List (Option Nat)) (s0 : UploadSession),
      (ps.map (UploadEvent.progressed uploadId)).foldl uploadStep s0 =
        { s0 with page := ps.foldl (reportProgress uploadId) s0.page } := by
    intro ps
    induction ps with
    | nil => intro s0; rfl
    | cons p ps ih =>
      intro s0
      simp only [List.map_cons, List.foldl_cons, uploadStep]
      rw [ih]
  unfold runUploads callEvents
  rw [List.foldl_cons, List.foldl_append, hprog]
  cases uploadResult with
  | error err => rfl
  | ok response =>
    cases analyzeResult with
    | error err => rfl
    | ok analysis => rfl

/-- Updating the tasks of one id leaves the tasks of another id as they were. -/
theorem filter_update_other (l : List UploadTask) (eid id : Int)
    (g : UploadTask → UploadTask) (hg : ∀ t, (g t).id = t.id) (h : eid ≠ id) :
    (l.map (fun t => if t.id = eid then g t else t)).filter (fun t => decide (t.id = id)) =
      l.filter (fun t => decide (t.id = id)) := by
  induction l with
  | nil => rfl
  | cons t rest ih =>
    simp only [List.map_cons, List.filter_cons, ih]
    by_cases ht : t.id = eid
    · have h1 : ¬ (g t).id = id := by
        rw [hg t, ht]
        exact h
      have h2 : ¬ t.id = id := by
        rw [ht]
        exact h
      rw [if_pos ht]
      simp [h1, h2]
    · simp [ht]

/-- Updating the tasks of one id updates exactly the tasks of that id. -/
theorem filter_update_same (l : List UploadTask) (id : Int)
    (g : UploadTask → UploadTask) (hg : ∀ t, (g t).id = t.id) :
    (l.map (fun t => if t.id = id then g t else t)).filter (fun t => decide (t.id = id)) =
      (l.filter (fun t => decide (t.id = id))).map g := by
  induction l with
  | nil => rfl
  | cons t rest ih =>
    simp only [List.map_cons, List.filter_cons, ih]
    by_cases ht : t.id = id
    · have h1 : (g t).id = id := by rw [hg t, ht]
      simp [ht, h1]
    · simp [ht]

/-- A step of a call with another id leaves the tasks of this id as they were. -/
theorem tasksOf_step_other (s : UploadSession) (e : UploadEvent) (id : Int)
    (h : e.uploadId ≠ id) : tasksOf id (uploadStep s e).page = tasksOf id s.page := by
  cases e with
  | started eid file =>
    have hne : ¬ eid = id := h
    simp [uploadStep, tasksOf, startUpload, List.filter_append, List.filter_cons, hne]
  | progressed eid progress =>
    exact filter_update_other s.page.uploadingFiles eid id
      (fun f => { f with progress := progress }) (fun _ => rfl) h
  | uploaded eid =>
    exact filter_update_other s.page.uploadingFiles eid id
      (fun f => { f with status := "analyzing", progress := some 100 }) (fun _ => rfl) h
  | analyzed eid file response =>
    exact filter_update_other s.page.uploadingFiles eid id
      (fun f => { f with status := "success" }) (fun _ => rfl) h
  | failed eid file error =>
    exact filter_update_other s.page.uploadingFiles eid id
      (fun f => { f with status := "error",
                         error := jsOr (errorDetail error) (Val.str "Upload failed") })
      (fun _ => rfl) h
  | timerFired eid =>
    have hne : eid ≠ id := h
    by_cases hm : eid ∈ s.timers
    · simp only [uploadStep, hm, if_true, tasksOf, removeUploadingFile, List.filter_filter]
      apply List.filter_congr
      intro t _
      by_cases ht : t.id = id
      · have hte : ¬ t.id = eid := by
          rw [ht]
          exact fun e => hne e.symm
        simp [hte]
      · simp [ht]
    · simp [uploadStep, hm]

/-- Steps of calls with other ids leave the tasks of this id as they were. -/
theorem tasksOf_run_other (s : UploadSession) (between : List UploadEvent) (id : Int)
    (h : ∀ e ∈ between, e.uploadId ≠ id) :
    tasksOf id (runUploads s between).page = tasksOf id s.page := by
  induction between generalizing s with
  | nil => rfl
  | cons e rest ih =>
    unfold runUploads at ih ⊢
    rw [List.foldl_cons, ih _ (fun e' he' => h e' (List.mem_cons_of_mem _ he'))]
    exact tasksOf_step_other s e id (h e (List.mem_cons_self _ _))

theorem mem_tasksOf (id : Int) (page : UploadPage) (t : UploadTask) :
    t ∈ tasksOf id page ↔ t ∈ page.uploadingFiles ∧ t.id = id := by
  simp [tasksOf, List.mem_filter]

/-- Claim C15 fails on the code, through the defect of C21. Two files dropped
in the same millisecond share the id 1700. When the upload of `a.csv` resolves,
its task is `analyzing` at 100 (and so, wrongly, is the task of `b.csv`); a
later progress callback of `b.csv` writes 60 into both tasks, and when the
analyze call of `a.csv` resolves its task becomes `success` with progress 60,
not 100. The first half of the claim holds in every session; the second half
holds whenever the steps between the two continuations belong to uploads with
other ids. -/
theorem upload_progress_overwritten :
    (runUploads emptySession collidingUploads).page.uploadingFiles.map
        (fun t => (t.file.name, t.status, t.progress)) =
      [("a.csv", "analyzing", some 100), ("b.csv", "analyzing", some 100)] ∧
    (runUploads emptySession
        (collidingUploads ++ [UploadEvent.progressed 1700 (some 60),
          UploadEvent.analyzed 1700 fileOne uploadOk])).page.uploadingFiles.map
        (fun t => (t.file.name, t.status, t.progress)) =
      [("a.csv", "success", some 60), ("b.csv", "success", some 60)] ∧
    (∀ (s : UploadSession) (id : Int),
      ∀ t ∈ (uploadStep s (UploadEvent.uploaded id)).page.uploadingFiles, t.id = id →
        t.status = "analyzing" ∧ t.progress = some 100) ∧
    (∀ (s : UploadSession) (id : Int) (file : LocalFile) (response : Response)
        (between : List UploadEvent), (∀ e ∈ between, e.uploadId ≠ id) →
      ∀ t ∈ (runUploads (uploadStep s (UploadEvent.uploaded id))
          (between ++ [UploadEvent.analyzed id file response])).page.uploadingFiles,
        t.id = id → t.status = "success" ∧ t.progress = some 100) := by
  have hup : ∀ (s : UploadSession) (id : Int),
      ∀ t ∈ tasksOf id (uploadStep s (UploadEvent.uploaded id)).page,
        t.status = "analyzing" ∧ t.progress = some 100 := by
    intro s id t ht
    have hEq : tasksOf id (uploadStep s (UploadEvent.uploaded id)).page =
        (tasksOf id s.page).map
          (fun f => { f with status := "analyzing", progress := some 100 }) :=
      filter_update_same s.page.uploadingFiles id
        (fun f => { f with status := "analyzing", progress := some 100 }) (fun _ => rfl)
    rw [hEq] at ht
    obtain ⟨f, _, rfl⟩ := List.mem_map.mp ht
    exact ⟨rfl, rfl⟩
  refine ⟨by decide, by decide, ?_, ?_⟩
  · intro s id t ht hid
    exact hup s id t ((mem_tasksOf id _ t).mpr ⟨ht, hid⟩)
  · intro s id file response between hother t ht hid
    have hmem := (mem_tasksOf id _ t).mpr ⟨ht, hid⟩
    have hrun : runUploads (uploadStep s (UploadEvent.uploaded id))
        (between ++ [UploadEvent.analyzed id file response]) =
        uploadStep (runUploads (uploadStep s (UploadEvent.uploaded id)) between)
          (UploadEvent.analyzed id file response) := by
      simp [runUploads, List.foldl_append]
    rw [hrun] at hmem
    have hEq : tasksOf id (uploadStep (runUploads (uploadStep s (UploadEvent.uploaded id))
        between) (UploadEvent.analyzed id file response)).page =
        (tasksOf id (runUploads (uploadStep s (UploadEvent.uploaded id)) between).page).map
          (fun f => { f with status := "success" }) :=
      filter_update_same _ id (fun f => { f with status := "success" }) (fun _ => rfl)
    rw [hEq, tasksOf_run_other _ between id hother] at hmem
    obtain ⟨f, hf, rfl⟩ := List.mem_map.mp hmem
    exact ⟨rfl, (hup s id f hf).2⟩

/-- A run of `handleUpload` without any progress event, and one whose last
event is short of the total: the task ends with status `success` at 100. -/
theorem handleUpload_examples :
    (handleUpload 1700 smallFile [] (Except.ok uploadOk) (Except.ok analyzeOk)
      emptyUploadPage).uploadingFiles =
      [{ id := 1700, file := smallFile, progress := some 100, status := "success",
         error := Val.null }] ∧
    (uploadResolved 1700 smallFile [⟨1, 3⟩] emptyUploadPage).uploadingFiles =
      [{ id := 1700, file := smallFile, progress := some 100, status := "analyzing",
         error := Val.null }] := by
  decide

/-! ## File store: single operations -/

/-- Claim C16. For every file store state and id, `removeFile(id)` yields the
previous files list without the entries whose `file_id` is `id`: no entry with
that id is left, every other entry is kept, and the order is the previous one;
selectedFile becomes null when its `file_id` was `id` and is unchanged
otherwise; uploadProgress is unchanged. -/
theorem removeFile_spec (s : FileStore) (id : Val) :
    (removeFile id s).files = s.files.filter (fun f => decide (fileIdOf f ≠ id)) ∧
    (∀ f ∈ (removeFile id s).files, fileIdOf f ≠ id) ∧
    (∀ f ∈ s.files, fileIdOf f ≠ id → f ∈ (removeFile id s).files) ∧
    List.Sublist (removeFile id s).files s.files ∧
    (∀ sel : Obj, s.selectedFile = some sel → fileIdOf sel = id →
      (removeFile id s).selectedFile = none) ∧
    (∀ sel : Obj, s.selectedFile = some sel → fileIdOf sel ≠ id →
      (removeFile id s).selectedFile = some sel) ∧
    (s.selectedFile = none → (removeFile id s).selectedFile = none) ∧
    (removeFile id s).uploadProgress = s.uploadProgress := by
  have hfiles : (removeFile id s).files = s.files.filter (fun f => decide (fileIdOf f ≠ id)) := by
    simp only [removeFile, strictEq]
    apply List.filter_congr
    intro f _
    simp
  refine ⟨hfiles, ?_, ?_, ?_, ?_, ?_, ?_, rfl⟩
  · intro f hf
    rw [hfiles] at hf
    simpa using (List.mem_filter.mp hf).2
  · intro f hf hne
    rw [hfiles]
    exact List.mem_filter.mpr ⟨hf, by simpa using hne⟩
  · rw [hfiles]
    exact List.filter_sublist _
  · intro sel hs hid
    simp [removeFile, hs, selectedFileId, strictEq, hid]
  · intro sel hs hid
    simp [removeFile, hs, selectedFileId, strictEq, hid]
  · intro hs
    simp [removeFile, hs]

/-- Claim C17. For every file store state without an entry whose `file_id` is
`id`, and every updates object, `updateFile(id, updates)` leaves the files list
(and the whole state) unchanged. -/
theorem updateFile_absent_noop (s : FileStore) (id : Val) (updates : Obj)
    (habs : ∀ f ∈ s.files, fileIdOf f ≠ id) :
    (updateFile id updates s).files = s.files ∧ updateFile id updates s = s := by
  have hfiles : (updateFile id updates s).files = s.files := by
    simp only [updateFile]
    conv_rhs => rw [← List.map_id s.files]
    apply List.map_congr_left
    intro f hf
    have : ¬ strictEq (fileIdOf f) id = true := fun h => habs f hf ((strictEq_iff _ _).mp h)
    simp [this]
  refine ⟨hfiles, ?_⟩
  obtain ⟨files, selected, progress⟩ := s
  simp only [updateFile, FileStore.mk.injEq, and_true]
  exact hfiles

/-- Witness of `updateFile_absent_noop`: the store holds only id `b`, the update
names id `a`. -/
theorem updateFile_absent_noop_witness :
    (∀ f ∈ storeB.files, fileIdOf f ≠ Val.str "a") ∧
    (updateFile (Val.str "a") [("status", Val.str "completed")] storeB).files = storeB.files :=
  ⟨by decide,
   (updateFile_absent_noop storeB (Val.str "a") [("status", Val.str "completed")]
    (by decide)).1⟩

/-- Claim C18. For every file store state and file `f`, `addFile(f)` yields a
files list whose first entry is `f` and whose remaining entries are the
previous files in their order, each one position further; the length grows by
exactly one, and selectedFile and uploadProgress are unchanged. -/
theorem addFile_spec (s : FileStore) (f : Obj) :
    (addFile f s).files = f :: s.files ∧
    (addFile f s).files.head? = some f ∧
    (addFile f s).files.tail = s.files ∧
    (∀ i : Nat, (addFile f s).files[i + 1]? = s.files[i]?) ∧
    (addFile f s).files.length = s.files.length + 1 ∧
    (addFile f s).selectedFile = s.selectedFile ∧
    (addFile f s).uploadProgress = s.uploadProgress := by
  have hfiles : (addFile f s).files = f :: s.files := rfl
  refine ⟨hfiles, ?_, ?_, ?_, ?_, rfl, rfl⟩
  · rw [hfiles]
    rfl
  · rw [hfiles]
    rfl
  · intro i
    rw [hfiles]
    exact List.getElem?_cons_succ
  · rw [hfiles]
    exact List.length_cons f s.files

/-! ## Task store: single entries -/

/-- Writing a key keeps the other keys in place and adds the key when missing. -/
theorem Dict.keys_set {α : Type} (o : Dict α) (k : String) (v : α) :
    (Dict.set o k v).map Prod.fst =
      if k ∈ o.map Prod.fst then o.map Prod.fst else o.map Prod.fst ++ [k] := by
  induction o with
  | nil => simp [Dict.set]
  | cons kv rest ih =>
    obtain ⟨k0, v0⟩ := kv
    by_cases h0 : k0 = k
    · simp [Dict.set, h0]
    · have h0' : ¬ k = k0 := fun e => h0 e.symm
      simp only [Dict.set, h0, if_false, List.map_cons, ih, List.mem_cons, h0', false_or]
      by_cases hm : k ∈ rest.map Prod.fst
      · simp [hm]
      · simp [hm]

/-- Writing a key into an object gives an object. -/
theorem Dict.WF_set {α : Type} (o : Dict α) (k : String) (v : α) (hwf : Dict.WF o) :
    Dict.WF (Dict.set o k v) := by
  unfold Dict.WF at hwf ⊢
  rw [Dict.keys_set]
  by_cases hm : k ∈ o.map Prod.fst
  · rw [if_pos hm]
    exact hwf
  · rw [if_neg hm]
    exact List.Nodup.append hwf (List.nodup_singleton k) (by simpa using hm)

/-- Claim C19. For every task store state (an object, so no key twice), task
id and task info: after `addTask(id, info)` the mapping holds exactly one entry
for `id`, it equals `info`, and the entry of every other key is as before;
after `removeTask(id)` the mapping has no entry for `id` and the entry of every
other key is as before. -/
theorem addTask_removeTask_spec (state : TaskStore) (id : String) (info : Obj)
    (hwf : Dict.WF state.tasks) :
    Dict.lookup (addTask id info state).tasks id = some info ∧
    ((addTask id info state).tasks.map Prod.fst).count id = 1 ∧
    Dict.WF (addTask id info state).tasks ∧
    (∀ k : String, k ≠ id →
      Dict.lookup (addTask id info state).tasks k = Dict.lookup state.tasks k) ∧
    Dict.lookup (removeTask id state).tasks id = none ∧
    id ∉ (removeTask id state).tasks.map Prod.fst ∧
    Dict.WF (removeTask id state).tasks ∧
    (∀ k : String, k ≠ id →
      Dict.lookup (removeTask id state).tasks k = Dict.lookup state.tasks k) := by
  have hadd : (addTask id info state).tasks = Dict.set state.tasks id info := rfl
  have hwf' : Dict.WF (addTask id info state).tasks := by
    rw [hadd]
    exact Dict.WF_set _ _ _ hwf
  have hl : Dict.lookup (addTask id info state).tasks id = some info := by
    rw [hadd, Dict.lookup_set]
    simp
  have hrem : Dict.lookup (removeTask id state).tasks id = none := by
    simp [removeTask, Dict.lookup_erase]
  refine ⟨hl, ?_, hwf', ?_, hrem, ?_, ?_, ?_⟩
  · apply List.count_eq_one_of_mem hwf'
    exact List.mem_map_of_mem Prod.fst (Dict.mem_of_lookup _ _ _ hl)
  · intro k hk
    have hk' : ¬ id = k := fun e => hk e.symm
    rw [hadd, Dict.lookup_set, if_neg hk']
  · exact (Dict.lookup_eq_none _ _).mp hrem
  · exact List.Nodup.sublist (List.Sublist.map _ (List.filter_sublist _)) hwf
  · intro k hk
    have hk' : ¬ id = k := fun e => hk e.symm
    simp [removeTask, Dict.lookup_erase, hk']

/-- Witness of `addTask_removeTask_spec`: task `t1` is pending, `addTask`
writes a new record under `t1`, which replaces the old one. -/
theorem addTask_removeTask_spec_witness :
    Dict.WF oneTask.tasks ∧
    (addTask "t1" [("status", Val.str "SUCCESS")] oneTask).tasks =
      [("t1", [("status", Val.str "SUCCESS")])] ∧
    Dict.lookup (addTask "t1" [("status", Val.str "SUCCESS")] oneTask).tasks "t1" =
      some [("status", Val.str "SUCCESS")] :=
  ⟨by decide, by decide,
   (addTask_removeTask_spec oneTask "t1" [("status", Val.str "SUCCESS")] (by decide)).1⟩

/-! ## UI store -/

/-- A field of `b` wins in the spread `{ ...a, ...b }`. -/
theorem Dict.lookup_spread_of_WF {α : Type} (a b : Dict α) (k : String) (v : α)
    (hwf : Dict.WF b) (h : Dict.lookup b k = some v) :
    Dict.lookup (Dict.spread a b) k = some v := by
  induction b generalizing a with
  | nil => simp [Dict.lookup] at h
  | cons kv rest ih =>
    obtain ⟨k0, v0⟩ := kv
    have hwf' : Dict.WF rest := (List.nodup_cons.mp hwf).2
    have hk0 : k0 ∉ rest.map Prod.fst := (List.nodup_cons.mp hwf).1
    by_cases hk : k0 = k
    · subst hk
      simp only [Dict.lookup, if_true, Option.some.injEq] at h
      subst h
      have hnone : Dict.lookup rest k0 = none := (Dict.lookup_eq_none rest k0).mpr hk0
      have := Dict.lookup_spread_of_none (Dict.set a k0 v0) rest k0 hnone
      simp only [Dict.spread, List.foldl_cons] at this ⊢
      rw [this, Dict.lookup_set]
      simp
    · simp only [Dict.lookup, hk, if_false] at h
      have := ih (Dict.set a k0 v0) hwf' h
      simpa [Dict.spread] using this

/-- Claim C20, as stated, fails: the list holds a notification created at time
1000, and a second `addNotification` in the same millisecond gives the new
entry the same id 1000; `removeNotification(1000)` then deletes both. -/
theorem addNotification_same_id_counterexample :
    (addNotification 1000 [("message", Val.str "again")] uiWithNote).notifications =
      [[("id", Val.num 1000), ("message", Val.str "saved")],
       [("id", Val.num 1000), ("message", Val.str "again")]] ∧
    ¬ (∀ m ∈ uiWithNote.notifications,
        Obj.get m "id" ≠ Obj.get (notificationEntry 1000 [("message", Val.str "again")]) "id") ∧
    (removeNotification (Val.num 1000)
      (addNotification 1000 [("message", Val.str "again")] uiWithNote)).notifications = [] := by
  decide

/-- Claim C20, amended. For every UI store state, time and notification,
`addNotification` appends exactly one entry at the end of notifications and
leaves the earlier entries and the other fields as they were. The id of the
new entry is the current time when the notification carries no id field (a
carried id field is kept); it differs from the ids already in the list exactly
when the current time differs from all of them. `removeNotification(id)`
deletes exactly the entries with that id and keeps the others in order. -/
theorem addNotification_spec (s : UIStore) (now : Int) (n : Obj) (id : Val) :
    (addNotification now n s).notifications = s.notifications ++ [notificationEntry now n] ∧
    (addNotification now n s).notifications.length = s.notifications.length + 1 ∧
    (addNotification now n s).sidebarOpen = s.sidebarOpen ∧
    (addNotification now n s).theme = s.theme ∧
    (Dict.lookup n "id" = none →
      Obj.get (notificationEntry now n) "id" = Val.num now ∧
      ((∀ m ∈ s.notifications, Obj.get m "id" ≠ Obj.get (notificationEntry now n) "id") ↔
        ∀ m ∈ s.notifications, Obj.get m "id" ≠ Val.num now)) ∧
    (∀ v : Val, Dict.lookup n "id" = some v → Dict.WF n →
      Obj.get (notificationEntry now n) "id" = v) ∧
    (removeNotification id s).notifications =
      s.notifications.filter (fun m => decide (Obj.get m "id" ≠ id)) ∧
    (∀ m : Obj, m ∈ (removeNotification id s).notifications ↔
      m ∈ s.notifications ∧ Obj.get m "id" ≠ id) := by
  have hrem : (removeNotification id s).notifications =
      s.notifications.filter (fun m => decide (Obj.get m "id" ≠ id)) := by
    simp only [removeNotification, strictEq]
    apply List.filter_congr
    intro m _
    simp
  refine ⟨rfl, by simp [addNotification], rfl, rfl, ?_, ?_, hrem, ?_⟩
  · intro hnone
    have hid : Obj.get (notificationEntry now n) "id" = Val.num now := by
      simp [notificationEntry, Obj.get, Dict.lookup_spread_of_none _ n "id" hnone, Dict.lookup]
    rw [hid]
    exact ⟨rfl, Iff.rfl⟩
  · intro v hv hwf
    simp only [notificationEntry, Obj.get]
    rw [Dict.lookup_spread_of_WF _ n "id" v hwf hv]
    rfl
  · intro m
    rw [hrem, List.mem_filter]
    simp

/-! ## Upload ids -/

/-- A progress callback leaves every task with another id as it was. -/
theorem reportProgress_other (uploadId : Int) (page : UploadPage) (progress : Option Nat)
    (i : Nat) (t : UploadTask) (ht : page.uploadingFiles[i]? = some t) (hid : t.id ≠ uploadId) :
    (reportProgress uploadId page progress).uploadingFiles[i]? = some t := by
  simp [reportProgress, ht, hid]

/-- Claim C21 fails on the code: two files dropped together read the same
`Date.now()`, so both tasks get id 1700. The progress callback of the first
upload then writes its percentage into both tasks, its success update marks
both as `success`, and its timer removes both. -/
theorem upload_ids_collide :
    pageAfterDrop.uploadingFiles.map UploadTask.id = [1700, 1700] ∧
    (reportProgress 1700 pageAfterDrop (some 50)).uploadingFiles.map
      (fun t => (t.file.name, t.progress)) = [("a.csv", some 50), ("b.csv", some 50)] ∧
    (markSuccess 1700 pageAfterDrop).uploadingFiles.map
      (fun t => (t.file.name, t.status)) = [("a.csv", "success"), ("b.csv", "success")] ∧
    (removeUploadingFile 1700 pageAfterDrop).uploadingFiles = [] := by
  decide

/-! ## Totality of the store operations -/

/-- The loop over entries that are all records is the loop of the typed store. -/
theorem clearCompletedLoopRaw_some (tasks : Dict Obj) (acc : Dict Obj) :
    clearCompletedLoopRaw (acc.map (fun e => (e.1, some e.2)))
        (tasks.map (fun e => (e.1, some e.2))) =
      Except.ok ((tasks.foldl
        (fun newTasks entry =>
          if notCompleted entry.2 then Dict.set newTasks entry.1 entry.2 else newTasks)
        acc).map (fun e => (e.1, some e.2))) := by
  have hset : ∀ (o : Dict Obj) (k : String) (v : Obj),
      Dict.set (o.map (fun e => (e.1, some e.2))) k (some v) =
        (Dict.set o k v).map (fun e => (e.1, some e.2)) := by
    intro o k v
    induction o with
    | nil => rfl
    | cons kv rest ih =>
      by_cases h : kv.1 = k
      · simp [Dict.set, h]
      · simp [Dict.set, h, ih]
  induction tasks generalizing acc with
  | nil => rfl
  | cons entry rest ih =>
    simp only [List.map_cons, clearCompletedLoopRaw, readProp, List.foldl_cons]
    by_cases hp : notCompleted entry.2 = true
    · have hp' : (!(strictEq (Obj.get entry.2 "status") (Val.str "SUCCESS")) &&
          !(strictEq (Obj.get entry.2 "status") (Val.str "FAILURE"))) = true := hp
      rw [if_pos hp', if_pos hp, hset, ih]
    · have hp' : ¬ (!(strictEq (Obj.get entry.2 "status") (Val.str "SUCCESS")) &&
          !(strictEq (Obj.get entry.2 "status") (Val.str "FAILURE"))) = true := hp
      rw [if_neg hp', if_neg hp, ih]

/-- Claim C22, as stated, fails: `addTask('t1', null)` is accepted and stores
`null`; `clearCompletedTasks()` then throws when it reads `task.status`, and
`updateFile` and `removeFile` throw on a files list holding `null`. An entry
that is a record without a status does no harm. -/
theorem store_null_entry_counterexample :
    addTaskRaw "t1" none [] = [("t1", none)] ∧
    clearCompletedTasksRaw (addTaskRaw "t1" none []) =
      Except.error (JsError.typeError "Cannot read properties of null, reading status") ∧
    updateFileRaw (Val.str "a") [("status", Val.str "completed")] [some fileA, none] =
      Except.error (JsError.typeError "Cannot read properties of null, reading file_id") ∧
    removeFileRaw (Val.str "a") [none] =
      Except.error (JsError.typeError "Cannot read properties of null, reading file_id") ∧
    clearCompletedTasksRaw [("t1", some [])] = Except.ok [("t1", some [])] :=
  ⟨rfl, rfl, rfl, rfl, rfl⟩

/-- Claim C22, amended. On stores whose file and task entries are records,
whatever fields they hold or lack, `clearCompletedTasks`, `updateFile` and
`removeFile` never throw: each returns the new state computed by the store
operation, for every argument value. -/
theorem store_mutations_total (tasks : Dict Obj) (s : FileStore) (id : Val) (updates : Obj) :
    clearCompletedTasksRaw (tasks.map (fun e => (e.1, some e.2))) =
      Except.ok ((clearCompletedTasks { tasks := tasks }).tasks.map (fun e => (e.1, some e.2))) ∧
    updateFileRaw id updates (s.files.map some) =
      Except.ok ((updateFile id updates s).files.map some) ∧
    removeFileRaw id (s.files.map some) = Except.ok ((removeFile id s).files.map some) := by
  refine ⟨?_, ?_, ?_⟩
  · exact clearCompletedLoopRaw_some tasks []
  · obtain ⟨files, selected, progress⟩ := s
    simp only [updateFile]
    induction files with
    | nil => rfl
    | cons f rest ih =>
      simp only [List.map_cons, updateFileRaw, readProp, ih]
      by_cases h : strictEq (Obj.get f "file_id") id = true
      · simp [fileIdOf, h]
      · simp [fileIdOf, h]
  · obtain ⟨files, selected, progress⟩ := s
    simp only [removeFile]
    induction files with
    | nil => rfl
    | cons f rest ih =>
      simp only [List.map_cons, removeFileRaw, readProp, ih]
      by_cases h : strictEq (Obj.get f "file_id") id = true
      · simp [fileIdOf, h, List.filter]
      · simp [fileIdOf, h, List.filter]

/-! ## Messages after a rejected call -/

theorem detailOr_eq (error : AxiosError) (generic : String) :
    (truthy (errorDetail error) = true → detailOr error generic = errorDetail error) ∧
    (truthy (errorDetail error) = false → detailOr error generic = Val.str generic) ∧
    (error.response = none → detailOr error generic = Val.str generic) := by
  refine ⟨?_, ?_, ?_⟩
  · intro h
    simp [detailOr, jsOr, h]
  · intro h
    simp [detailOr, jsOr, h]
  · intro h
    simp [detailOr, jsOr, errorDetail, h, truthy]

/-- Claim C23, as stated, fails: the server rejects a delete with the detail
`File is locked`, and `handleDelete` shows `Failed to delete file`. -/
theorem handleDelete_ignores_detail_counterexample :
    errorDetail errorWithDetail = Val.str "File is locked" ∧
    (catchEffects Handler.handleDelete errorWithDetail).filter PageEffect.isToast =
      [PageEffect.toastError (Val.str "Failed to delete file")] ∧
    (catchEffects Handler.handleAnalyzeAddress errorWithDetail).filter PageEffect.isToast =
      [PageEffect.toastError (Val.str "File is locked")] := by
  decide

/-- Claim C23, amended. After a rejected call the handlers of the blockchain
and scraping pages show the `detail` of the error response when it is truthy
(a non-empty string) and their own generic message otherwise (no response, no
detail, or an empty one); `loadFileDetail`, `handleDelete` and
`loadDashboardData` always show their fixed message; `handleUpload` always
shows `Failed to upload` with the file name, and stores the detail, or
`Upload failed`, in the error field of the task. -/
theorem failure_messages (error : AxiosError) :
    (∀ h : Handler, ∀ generic : String,
      (h, generic) ∈ [(Handler.handleAnalyzeAddress, "Analysis failed"),
        (Handler.handleGetTransaction, "Failed to get transaction"),
        (Handler.handleGetBlock, "Failed to get block"),
        (Handler.handleAnalyzeContract, "Analysis failed"),
        (Handler.handleSingleScrape, "Scraping failed"),
        (Handler.handleMultipleScrape, "Scraping failed"),
        (Handler.handleCrawl, "Crawling failed"),
        (Handler.handleExtractTables, "Extraction failed")] →
      (catchEffects h error).filter PageEffect.isToast =
          [PageEffect.toastError (detailOr error generic)] ∧
      (truthy (errorDetail error) = true → detailOr error generic = errorDetail error) ∧
      (truthy (errorDetail error) = false → detailOr error generic = Val.str generic)) ∧
    (catchEffects Handler.loadFileDetail error).filter PageEffect.isToast =
      [PageEffect.toastError (Val.str "Failed to load file details")] ∧
    (catchEffects Handler.handleDelete error).filter PageEffect.isToast =
      [PageEffect.toastError (Val.str "Failed to delete file")] ∧
    (catchEffects Handler.loadDashboardData error).filter PageEffect.isToast =
      [PageEffect.toastError (Val.str "Failed to load dashboard data")] ∧
    (∀ (uploadId : Int) (file : LocalFile) (page : UploadPage),
      (failUpload uploadId file error page).toasts =
          page.toasts ++ [Toast.error ("Failed to upload " ++ file.name)] ∧
      ∀ t ∈ (failUpload uploadId file error page).uploadingFiles, t.id = uploadId →
        t.error = detailOr error "Upload failed") := by
  refine ⟨?_, rfl, rfl, rfl, ?_⟩
  · intro h generic hmem
    have hd := detailOr_eq error generic
    simp only [List.mem_cons, Prod.mk.injEq, List.mem_singleton, List.not_mem_nil, or_false]
      at hmem
    rcases hmem with ⟨rfl, rfl⟩ | ⟨rfl, rfl⟩ | ⟨rfl, rfl⟩ | ⟨rfl, rfl⟩ | ⟨rfl, rfl⟩ |
      ⟨rfl, rfl⟩ | ⟨rfl, rfl⟩ | ⟨rfl, rfl⟩ <;> exact ⟨rfl, hd.1, hd.2.1⟩
  · intro uploadId file page
    refine ⟨rfl, ?_⟩
    intro t ht hid
    simp only [failUpload, List.mem_map] at ht
    obtain ⟨f, _, hf⟩ := ht
    by_cases h : f.id = uploadId
    · rw [if_pos h] at hf
      subst hf
      rfl
    · rw [if_neg h] at hf
      subst hf
      exact absurd hid h

/-- Claim C24, as stated, fails: when the call of `loadGasPrices` or of
`loadStats` is rejected, the handler writes to the console and shows nothing. -/
theorem silent_loaders_counterexample :
    catchEffects Handler.loadGasPrices networkError =
      [PageEffect.consoleError "Failed to load gas prices:"] ∧
    (catchEffects Handler.loadGasPrices networkError).filter PageEffect.isToast = [] ∧
    (catchEffects Handler.loadStats networkError).filter PageEffect.isToast = [] := by
  decide

/-- Claim C24, amended. For every rejected call, every handler other than
`loadGasPrices` and `loadStats` shows exactly one error notification, and so
does `handleUpload`; `loadGasPrices` and `loadStats` show none (they write to
the console only). -/
theorem rejected_call_notifications (h : Handler) (error : AxiosError) :
    (h ≠ Handler.loadGasPrices ∧ h ≠ Handler.loadStats →
      ∃ msg : Val, (catchEffects h error).filter PageEffect.isToast =
        [PageEffect.toastError msg]) ∧
    (h = Handler.loadGasPrices ∨ h = Handler.loadStats →
      (catchEffects h error).filter PageEffect.isToast = []) ∧
    (∀ (uploadId : Int) (file : LocalFile) (page : UploadPage),
      ∃ msg : String, (failUpload uploadId file error page).toasts =
        page.toasts ++ [Toast.error msg]) := by
  refine ⟨?_, ?_, fun _ file _ => ⟨"Failed to upload " ++ file.name, rfl⟩⟩
  · rintro ⟨h1, h2⟩
    cases h
    case loadGasPrices => exact absurd rfl h1
    case loadStats => exact absurd rfl h2
    all_goals exact ⟨_, rfl⟩
  · rintro (rfl | rfl) <;> rfl

/-- Claim C25. For every file id and every outcome the delete call could
have: when the user declines, `handleDelete` does nothing after the prompt (no
request, no notification, no navigation); a request is issued only when the
user confirmed, and it is then `DELETE /upload/file/` followed by the id,
right after the prompt. -/
theorem handleDelete_needs_confirmation (fileId : String)
    (result : Except AxiosError Response) :
    handleDelete fileId false result =
      [PageEffect.confirmPrompt "Are you sure you want to delete this file?"] ∧
    (∀ e ∈ handleDelete fileId false result,
      e = PageEffect.confirmPrompt "Are you sure you want to delete this file?") ∧
    (∀ (confirmed : Bool) (method url : String),
      PageEffect.request method url ∈ handleDelete fileId confirmed result →
        confirmed = true ∧ method = "DELETE" ∧ url = "/upload/file/" ++ fileId) ∧
    (handleDelete fileId true result)[0]? =
      some (PageEffect.confirmPrompt "Are you sure you want to delete this file?") ∧
    (handleDelete fileId true result)[1]? =
      some (PageEffect.request "DELETE" ("/upload/file/" ++ fileId)) := by
  refine ⟨rfl, ?_, ?_, rfl, ?_⟩
  · intro e he
    simpa [handleDelete] using he
  · intro confirmed method url hmem
    cases confirmed with
    | false => simp [handleDelete] at hmem
    | true =>
      cases result with
      | ok r =>
        simp [handleDelete, deleteFile, apiDelete] at hmem
        exact ⟨rfl, hmem.1, hmem.2⟩
      | error err =>
        simp [handleDelete, deleteFile, apiDelete, catchEffects] at hmem
        exact ⟨rfl, hmem.1, hmem.2⟩
  · simp [handleDelete, deleteFile, apiDelete]

/-! ## API client operations -/

/-- Claim C26, as stated, fails for `extractTables`: the operation does not
leave the body out, it passes `null` as data (`api.post(path, null, ...)`),
and the JSON client sends it as a body; the row of the table lists only the
query parameter, so the request is not the one of the table. A request built
by `api.get`, such as `getStats`, has no data at all. -/
theorem extractTables_body_counterexample :
    (extractTables (Val.str "https://example.com")).data = Body.jsonNull ∧
    (extractTables (Val.str "https://example.com")).data ≠ Body.absent ∧
    Body.isSent (extractTables (Val.str "https://example.com")).data = true ∧
    ¬ conformsTo "extractTables" (extractTables (Val.str "https://example.com")) "" ∧
    getStats.data = Body.absent ∧ Body.isSent getStats.data = false := by
  refine ⟨rfl, by decide, rfl, ?_, rfl, rfl⟩
  rintro ⟨row, hrow, hc⟩
  have hr : row = ⟨"POST", "/scrape/extract-tables", false, none, ["url"]⟩ := by
    have h : Dict.lookup endpointTable "extractTables" =
        some ⟨"POST", "/scrape/extract-tables", false, none, ["url"]⟩ := by decide
    rw [h] at hrow
    exact (Option.some.inj hrow).symm
  subst hr
  exact hc.2.2.1

/-- Claim C26, amended. Each operation of the API client builds the request of
its row in the endpoint table, with its arguments under the listed names:
the method, the path (the id appended where the row has `{id}`), the body
fields and the query parameters, each holding the argument of that name (or
the default of the operation when the argument is `undefined`). The one
departure is the body of `extractTables`: method, path and the query
parameter `url` are those of the table, and the data is `null`, not absent. -/
theorem api_requests_conform (file : LocalFile) (id : String) (urls : List String)
    (a b c : Val) :
    (conformsTo "uploadFile" (uploadFile file) "" ∧
      uploadFile file =
        { method := "POST", url := "/upload/file",
          headers := [("Content-Type", Val.str "multipart/form-data")], params := [],
          data := Body.form [("file", Arg.file file)] }) ∧
    (conformsTo "getFiles" (getFiles a b) "" ∧
      getFiles a b =
        { method := "GET", url := "/upload/files", headers := [],
          params := [("skip", dflt a (Val.num 0)), ("limit", dflt b (Val.num 50))],
          data := Body.absent }) ∧
    (conformsTo "getFileInfo" (getFileInfo id) id ∧
      getFileInfo id =
        { method := "GET", url := "/upload/file/" ++ id, headers := [], params := [],
          data := Body.absent }) ∧
    (conformsTo "deleteFile" (deleteFile id) id ∧
      deleteFile id =
        { method := "DELETE", url := "/upload/file/" ++ id, headers := [], params := [],
          data := Body.absent }) ∧
    (conformsTo "analyzeFile" (analyzeFile a) "" ∧
      analyzeFile a =
        { method := "POST", url := "/analyze/full", headers := [], params := [],
          data := Body.json [("file_id", Arg.val a)] }) ∧
    (conformsTo "cleanData" (cleanData a b) "" ∧
      cleanData a b =
        { method := "POST", url := "/analyze/clean", headers := [], params := [],
          data := Body.json [("file_id", Arg.val a),
            ("strategy", Arg.val (dflt b (Val.str "drop")))] }) ∧
    (conformsTo "deduplicateData" (deduplicateData a b c) "" ∧
      deduplicateData a b c =
        { method := "POST", url := "/analyze/deduplicate", headers := [], params := [],
          data := Body.json [("file_id", Arg.val a),
            ("method", Arg.val (dflt b (Val.str "hybrid"))),
            ("keep", Arg.val (dflt c (Val.str "first")))] }) ∧
    (conformsTo "getTaskStatus" (getTaskStatus id) id ∧
      getTaskStatus id =
        { method := "GET", url := "/analyze/task/" ++ id, headers := [], params := [],
          data := Body.absent }) ∧
    (conformsTo "scrapeUrl" (scrapeUrl a b) "" ∧
      scrapeUrl a b =
        { method := "POST", url := "/scrape/url", headers := [], params := [],
          data := Body.json [("url", Arg.val a),
            ("method", Arg.val (dflt b (Val.str "requests")))] }) ∧
    (conformsTo "scrapeMultiple" (scrapeMultiple urls a b) "" ∧
      scrapeMultiple urls a b =
        { method := "POST", url := "/scrape/multiple", headers := [], params := [],
          data := Body.json [("urls", Arg.strs urls),
            ("method", Arg.val (dflt a (Val.str "requests"))),
            ("max_concurrent", Arg.val (dflt b (Val.num 5)))] }) ∧
    (conformsTo "crawlWebsite" (crawlWebsite a b c) "" ∧
      crawlWebsite a b c =
        { method := "POST", url := "/scrape/crawl", headers := [], params := [],
          data := Body.json [("start_url", Arg.val a),
            ("max_depth", Arg.val (dflt b (Val.num 2))),
            ("max_pages", Arg.val (dflt c (Val.num 100)))] }) ∧
    extractTables a =
      { method := "POST", url := "/scrape/extract-tables", headers := [],
        params := [("url", a)], data := Body.jsonNull } ∧
    (conformsTo "analyzeBlockchainAddress" (analyzeBlockchainAddress a) "" ∧
      analyzeBlockchainAddress a =
        { method := "POST", url := "/blockchain/analyze-address", headers := [], params := [],
          data := Body.json [("address", Arg.val a)] }) ∧
    (conformsTo "getTransaction" (getTransaction a) "" ∧
      getTransaction a =
        { method := "POST", url := "/blockchain/transaction", headers := [], params := [],
          data := Body.json [("tx_hash", Arg.val a)] }) ∧
    (conformsTo "getBlock" (getBlock a) "" ∧
      getBlock a =
        { method := "POST", url := "/blockchain/block", headers := [], params := [],
          data := Body.json [("block_number", Arg.val a)] }) ∧
    (conformsTo "getGasPrices" getGasPrices "" ∧
      getGasPrices =
        { method := "GET", url := "/blockchain/gas-prices", headers := [], params := [],
          data := Body.absent }) ∧
    (conformsTo "analyzeContract" (analyzeContract a) "" ∧
      analyzeContract a =
        { method := "POST", url := "/blockchain/analyze-contract", headers := [], params := [],
          data := Body.json [("address", Arg.val a)] }) ∧
    (conformsTo "healthCheck" healthCheck "" ∧
      healthCheck =
        { method := "GET", url := "/health", headers := [], params := [],
          data := Body.absent }) ∧
    (conformsTo "getStats" getStats "" ∧
      getStats =
        { method := "GET", url := "/stats", headers := [], params := [],
          data := Body.absent }) ∧
    (a ≠ Val.undefined → dflt a b = a) ∧ dflt Val.undefined b = b := by
  refine ⟨⟨⟨_, rfl, rfl, rfl, rfl, rfl⟩, rfl⟩, ⟨⟨_, rfl, rfl, rfl, trivial, rfl⟩, rfl⟩,
    ⟨⟨_, rfl, rfl, rfl, trivial, rfl⟩, rfl⟩, ⟨⟨_, rfl, rfl, rfl, trivial, rfl⟩, rfl⟩,
    ⟨⟨_, rfl, rfl, rfl, rfl, rfl⟩, rfl⟩, ⟨⟨_, rfl, rfl, rfl, rfl, rfl⟩, rfl⟩,
    ⟨⟨_, rfl, rfl, rfl, rfl, rfl⟩, rfl⟩, ⟨⟨_, rfl, rfl, rfl, trivial, rfl⟩, rfl⟩,
    ⟨⟨_, rfl, rfl, rfl, rfl, rfl⟩, rfl⟩, ⟨⟨_, rfl, rfl, rfl, rfl, rfl⟩, rfl⟩,
    ⟨⟨_, rfl, rfl, rfl, rfl, rfl⟩, rfl⟩, rfl,
    ⟨⟨_, rfl, rfl, rfl, rfl, rfl⟩, rfl⟩, ⟨⟨_, rfl, rfl, rfl, rfl, rfl⟩, rfl⟩,
    ⟨⟨_, rfl, rfl, rfl, rfl, rfl⟩, rfl⟩, ⟨⟨_, rfl, rfl, rfl, trivial, rfl⟩, rfl⟩,
    ⟨⟨_, rfl, rfl, rfl, rfl, rfl⟩, rfl⟩, ⟨⟨_, rfl, rfl, rfl, trivial, rfl⟩, rfl⟩,
    ⟨⟨_, rfl, rfl, rfl, trivial, rfl⟩, rfl⟩, ?_, ?_⟩
  · intro h
    simp [dflt, h]
  · simp [dflt]

/-- The requests of the operations named in the claim, on sample arguments. -/
theorem api_requests_examples :
    (crawlWebsite (Val.str "https://example.com") (Val.num 3) Val.undefined).data =
      Body.json [("start_url", Arg.val (Val.str "https://example.com")),
        ("max_depth", Arg.val (Val.num 3)), ("max_pages", Arg.val (Val.num 100))] ∧
    (scrapeMultiple ["http://a", "http://b"] (Val.str "requests") Val.undefined).data =
      Body.json [("urls", Arg.strs ["http://a", "http://b"]),
        ("method", Arg.val (Val.str "requests")), ("max_concurrent", Arg.val (Val.num 5))] ∧
    (getFiles (Val.num 0) (Val.num 5)).params = [("skip", Val.num 0), ("limit", Val.num 5)] ∧
    (getFiles (Val.num 0) (Val.num 5)).url = "/upload/files" ∧
    (deleteFile "f1").url = "/upload/file/f1" ∧ (deleteFile "f1").method = "DELETE" := by
  decide

/-! ## Task store: `updateTask` -/

/-- A spread reads each key from the second object when it has it, and from
the first otherwise. -/
theorem Dict.lookup_spread {α : Type} (a b : Dict α) (k : String) (hwf : Dict.WF b) :
    Dict.lookup (Dict.spread a b) k =
      match Dict.lookup b k with
      | some v => some v
      | none => Dict.lookup a k := by
  cases h : Dict.lookup b k with
  | none => exact Dict.lookup_spread_of_none a b k h
  | some v => exact Dict.lookup_spread_of_WF a b k v hwf h

/-- Claim C27. For every task store state, id and updates object: without an
entry for `id`, `updateTask(id, updates)` is not a no-op, it creates an entry
for `id` whose fields are those of `updates` alone; with an entry for `id`, the
new entry has each field of `updates` and, for every other field, the value of
the old entry; in both cases the entry of every other key is unchanged. -/
theorem updateTask_spec (state : TaskStore) (id : String) (updates : Obj)
    (hwf : Dict.WF updates) :
    (Dict.lookup state.tasks id = none →
      updateTask id updates state ≠ state ∧
      ∃ entry : Obj, Dict.lookup (updateTask id updates state).tasks id = some entry ∧
        ∀ k : String, Dict.lookup entry k = Dict.lookup updates k) ∧
    (∀ old : Obj, Dict.lookup state.tasks id = some old →
      ∃ entry : Obj, Dict.lookup (updateTask id updates state).tasks id = some entry ∧
        ∀ k : String, Dict.lookup entry k =
          match Dict.lookup updates k with
          | some v => some v
          | none => Dict.lookup old k) ∧
    (∀ k : String, k ≠ id →
      Dict.lookup (updateTask id updates state).tasks k = Dict.lookup state.tasks k) := by
  have hnew : Dict.lookup (updateTask id updates state).tasks id =
      some (Dict.spread (taskEntryOrEmpty state.tasks id) updates) := by
    simp [updateTask, Dict.spread, Dict.lookup_set]
  refine ⟨?_, ?_, ?_⟩
  · intro hnone
    refine ⟨?_, _, hnew, ?_⟩
    · intro heq
      rw [heq, hnone] at hnew
      cases hnew
    · intro k
      rw [Dict.lookup_spread _ _ _ hwf]
      cases Dict.lookup updates k with
      | none => simp [taskEntryOrEmpty, hnone, Dict.lookup]
      | some v => rfl
  · intro old hold
    refine ⟨_, hnew, ?_⟩
    intro k
    rw [Dict.lookup_spread _ _ _ hwf]
    cases Dict.lookup updates k with
    | none => simp [taskEntryOrEmpty, hold]
    | some v => rfl
  · intro k hk
    have hk' : ¬ id = k := fun e => hk e.symm
    simp [updateTask, Dict.spread, Dict.lookup_set, hk']

/-- Witness of `updateTask_spec`: the store holds only `t1`; `updateTask` on
`t9` creates an entry made of the updates. -/
theorem updateTask_spec_witness :
    Dict.WF ([("status", Val.str "SUCCESS")] : Obj) ∧
    Dict.lookup oneTask.tasks "t9" = none ∧
    (updateTask "t9" [("status", Val.str "SUCCESS")] oneTask).tasks =
      [("t1", [("status", Val.str "PENDING")]), ("t9", [("status", Val.str "SUCCESS")])] ∧
    updateTask "t9" [("status", Val.str "SUCCESS")] oneTask ≠ oneTask :=
  ⟨by decide, by decide, by decide,
   ((updateTask_spec oneTask "t9" [("status", Val.str "SUCCESS")] (by decide)).1
    (by decide)).1⟩

/-! ## Upload page: a rejected analyze call -/

/-- The message kept for a failed upload is read from the payload of the
error response: its non-empty `detail` string, and `Upload failed` when the
error has no response or the payload has no `detail`. -/
theorem detailOr_payload (error : AxiosError) (generic : String) :
    (∀ (r : Response) (d : String), error.response = some r →
      Dict.lookup r.data "detail" = some (Val.str d) → d ≠ "" →
      detailOr error generic = Val.str d) ∧
    (∀ r : Response, error.response = some r → Dict.lookup r.data "detail" = none →
      detailOr error generic = Val.str generic) ∧
    (error.response = none → detailOr error generic = Val.str generic) := by
  refine ⟨?_, ?_, ?_⟩
  · intro r d hr hd hne
    have ht : truthyStr d = true := (truthyStr_iff d).mpr hne
    simp [detailOr, jsOr, errorDetail, hr, Obj.get, hd, truthy, ht]
  · intro r hr hd
    simp [detailOr, jsOr, errorDetail, hr, Obj.get, hd, truthy]
  · intro hr
    simp [detailOr, jsOr, errorDetail, hr, truthy]

/-- Claim C28 fails on the code, through the defect of C21. Two files dropped
in the same millisecond share the id 1700 and both upload calls resolve. The
analyze call of `a.csv` is rejected: its task gets status `error` with the
server's detail (and so, wrongly, does the task of `b.csv`), the file store is
untouched and no timer is set. Then the analyze call of `b.csv` resolves: the
failed task of `a.csv` is marked `success`, and the timer of `b.csv` removes
it. In every session the `catch` step itself leaves the file store and the
timers alone and writes status `error` and the detail (or `Upload failed`)
into the task; the task then stays failed and in the list as long as the
later steps belong to uploads with other ids. -/
theorem failed_upload_overwritten :
    ((runUploads emptySession
        (collidingAnalyses ++
          [UploadEvent.failed 1700 fileOne errorWithDetail])).page.uploadingFiles.map
        (fun t => (t.file.name, t.status, t.error)) =
      [("a.csv", "error", Val.str "File is locked"),
       ("b.csv", "error", Val.str "File is locked")] ∧
     (runUploads emptySession
        (collidingAnalyses ++
          [UploadEvent.failed 1700 fileOne errorWithDetail])).page.fileStore = emptyFiles ∧
     (runUploads emptySession
        (collidingAnalyses ++
          [UploadEvent.failed 1700 fileOne errorWithDetail])).timers = []) ∧
    (runUploads emptySession
        (collidingAnalyses ++
          [UploadEvent.failed 1700 fileOne errorWithDetail,
           UploadEvent.analyzed 1700 fileTwo uploadOk])).page.uploadingFiles.map
        (fun t => (t.file.name, t.status)) =
      [("a.csv", "success"), ("b.csv", "success")] ∧
    (runUploads emptySession
        (collidingAnalyses ++
          [UploadEvent.failed 1700 fileOne errorWithDetail,
           UploadEvent.analyzed 1700 fileTwo uploadOk,
           UploadEvent.timerFired 1700])).page.uploadingFiles = [] ∧
    (∀ (s : UploadSession) (id : Int) (file : LocalFile) (error : AxiosError)
        (between : List UploadEvent), (∀ e ∈ between, e.uploadId ≠ id) →
      (uploadStep s (UploadEvent.failed id file error)).page.fileStore = s.page.fileStore ∧
      (uploadStep s (UploadEvent.failed id file error)).timers = s.timers ∧
      (∀ t ∈ (runUploads (uploadStep s (UploadEvent.failed id file error))
          between).page.uploadingFiles, t.id = id →
        t.status = "error" ∧ t.error = detailOr error "Upload failed") ∧
      (tasksOf id (runUploads (uploadStep s (UploadEvent.failed id file error))
          between).page).length = (tasksOf id s.page).length) ∧
    (∀ (error : AxiosError),
      (∀ (r : Response) (d : String), error.response = some r →
        Dict.lookup r.data "detail" = some (Val.str d) → d ≠ "" →
        detailOr error "Upload failed" = Val.str d) ∧
      (∀ r : Response, error.response = some r → Dict.lookup r.data "detail" = none →
        detailOr error "Upload failed" = Val.str "Upload failed") ∧
      (error.response = none → detailOr error "Upload failed" = Val.str "Upload failed")) := by
  refine ⟨by decide, by decide, by decide, ?_, fun error => detailOr_payload error _⟩
  intro s id file error between hother
  have hEq : tasksOf id (uploadStep s (UploadEvent.failed id file error)).page =
      (tasksOf id s.page).map
        (fun f => { f with status := "error", error := detailOr error "Upload failed" }) :=
    filter_update_same s.page.uploadingFiles id
      (fun f => { f with status := "error", error := detailOr error "Upload failed" })
      (fun _ => rfl)
  refine ⟨rfl, rfl, ?_, ?_⟩
  · intro t ht hid
    have hmem := (mem_tasksOf id _ t).mpr ⟨ht, hid⟩
    rw [tasksOf_run_other _ between id hother, hEq] at hmem
    obtain ⟨f, _, rfl⟩ := List.mem_map.mp hmem
    exact ⟨rfl, rfl⟩
  · rw [tasksOf_run_other _ between id hother, hEq, List.length_map]

/-- A run of `handleUpload` whose analyze call is rejected with a detail. -/
theorem handleUpload_analyze_rejected_example :
    (handleUpload 1700 smallFile [⟨3, 3⟩] (Except.ok uploadOk) (Except.error errorWithDetail)
      emptyUploadPage) =
      { uploadingFiles :=
          [{ id := 1700, file := smallFile, progress := some 100, status := "error",
             error := Val.str "File is locked" }],
        fileStore := emptyFiles,
        toasts := [Toast.error "Failed to upload data.csv"] } := by
  decide

/-! ## File store: frame conditions -/

/-- Claim C29. Each operation of the file store changes only its own slice:
`setFiles`, `addFile` and `updateFile` leave selectedFile and uploadProgress
unchanged, so a selected copy of an updated file keeps its old fields;
`selectFile` leaves files and uploadProgress unchanged; `setUploadProgress(id,
p)` and `clearUploadProgress(id)` leave files and selectedFile unchanged, set
respectively remove the uploadProgress entry of `id`, and leave the entry of
every other key as it was. -/
theorem fileStore_frames (s : FileStore) (list : List Obj) (f updates : Obj) (id : Val)
    (sel : Option Obj) (key : String) (p : Val) :
    ((setFiles list s).selectedFile = s.selectedFile ∧
      (setFiles list s).uploadProgress = s.uploadProgress) ∧
    ((addFile f s).selectedFile = s.selectedFile ∧
      (addFile f s).uploadProgress = s.uploadProgress) ∧
    ((updateFile id updates s).selectedFile = s.selectedFile ∧
      (updateFile id updates s).uploadProgress = s.uploadProgress) ∧
    ((selectFile sel s).files = s.files ∧ (selectFile sel s).selectedFile = sel ∧
      (selectFile sel s).uploadProgress = s.uploadProgress) ∧
    ((setUploadProgress key p s).files = s.files ∧
      (setUploadProgress key p s).selectedFile = s.selectedFile ∧
      Dict.lookup (setUploadProgress key p s).uploadProgress key = some p ∧
      ∀ k : String, k ≠ key →
        Dict.lookup (setUploadProgress key p s).uploadProgress k =
          Dict.lookup s.uploadProgress k) ∧
    ((clearUploadProgress key s).files = s.files ∧
      (clearUploadProgress key s).selectedFile = s.selectedFile ∧
      Dict.lookup (clearUploadProgress key s).uploadProgress key = none ∧
      ∀ k : String, k ≠ key →
        Dict.lookup (clearUploadProgress key s).uploadProgress k =
          Dict.lookup s.uploadProgress k) ∧
    ((updateFile (Val.str "b") [("status", Val.str "completed")] storeB).files =
        [[("file_id", Val.str "b"), ("status", Val.str "completed")]] ∧
      (updateFile (Val.str "b") [("status", Val.str "completed")] storeB).selectedFile =
        some [("file_id", Val.str "b"), ("status", Val.str "uploaded")]) := by
  refine ⟨⟨rfl, rfl⟩, ⟨rfl, rfl⟩, ⟨rfl, rfl⟩, ⟨rfl, rfl, rfl⟩, ⟨rfl, rfl, ?_, ?_⟩,
    ⟨rfl, rfl, ?_, ?_⟩, by decide⟩
  · simp [setUploadProgress, Dict.spread, Dict.lookup_set]
  · intro k hk
    have hk' : ¬ key = k := fun e => hk e.symm
    simp [setUploadProgress, Dict.spread, Dict.lookup_set, hk']
  · simp [clearUploadProgress, Dict.lookup_erase]
  · intro k hk
    have hk' : ¬ key = k := fun e => hk e.symm
    simp [clearUploadProgress, Dict.lookup_erase, hk']

/-! ## `formatFileSize` -/

/-- With enough fuel, `floorLog k` brackets `n` between two powers of `k`. -/
theorem floorLog_spec (k : Nat) (hk : 2 ≤ k) (fuel n : Nat) (h1 : 1 ≤ n) (hf : n ≤ fuel) :
    k ^ floorLog k fuel n ≤ n ∧ n < k ^ (floorLog k fuel n + 1) := by
  induction fuel generalizing n with
  | zero => omega
  | succ fuel ih =>
    by_cases hlt : n < k
    · have h0 : floorLog k (fuel + 1) n = 0 := by simp [floorLog, hlt]
      rw [h0, pow_zero, zero_add, pow_one]
      exact ⟨h1, hlt⟩
    · have hkn : k ≤ n := Nat.le_of_not_lt hlt
      have hkpos : 0 < k := by omega
      have hq1 : 1 ≤ n / k := (Nat.one_le_div_iff hkpos).mpr hkn
      have hqlt : n / k < n := Nat.div_lt_self (by omega) (by omega)
      have hqf : n / k ≤ fuel := by omega
      obtain ⟨hlo, hhi⟩ := ih (n / k) hq1 hqf
      simp only [floorLog, hlt, if_false]
      constructor
      · calc k ^ (floorLog k fuel (n / k) + 1)
            = k ^ floorLog k fuel (n / k) * k := pow_succ _ _
          _ ≤ n / k * k := Nat.mul_le_mul_right k hlo
          _ ≤ n := Nat.div_mul_le_self n k
      · have hm := Nat.mod_lt n hkpos
        have hd := Nat.div_add_mod n k
        have hstep : n < (n / k + 1) * k := by
          calc n = k * (n / k) + n % k := hd.symm
            _ < k * (n / k) + k := by omega
            _ = (n / k + 1) * k := by ring
        calc n < (n / k + 1) * k := hstep
          _ ≤ k ^ (floorLog k fuel (n / k) + 1) * k := Nat.mul_le_mul_right k hhi
          _ = k ^ (floorLog k fuel (n / k) + 1 + 1) := (pow_succ _ _).symm

/-- The unit index brackets the byte count between two powers of 1024. -/
theorem unitIndex_spec (b : Nat) (h1 : 1 ≤ b) :
    1024 ^ unitIndex b ≤ b ∧ b < 1024 ^ (unitIndex b + 1) :=
  floorLog_spec 1024 (by decide) b b h1 (le_refl b)

/-- Claim C30, as stated, fails: 1048575 bytes are in the KB range, the
quotient 1048575 / 1024 = 1023.999... is below 1024, but rounded to two
decimals it is 1024.00, and the text shown is `1024 KB`: the displayed value
is not in [1, 1024). -/
theorem formatFileSize_1024_counterexample :
    (1 ≤ 1048575 ∧ 1048575 < 1024 ^ 4) ∧
    unitIndex 1048575 = 1 ∧
    sizeHundredths 1048575 = 102400 ∧
    ¬ (sizeHundredths 1048575 < 1024 * 100) ∧
    formatFileSize 1048575 = "1024 KB" := by
  decide

/-- Claim C30, amended. `formatFileSize(0)` is `0 Bytes`. For every byte count
`b ≥ 1` the unit index `i` is the one with `1024^i ≤ b < 1024^(i+1)`, and the
number shown is `b / 1024^i` rounded to two decimals (a half rounded up): the
quotient lies in [1, 1024) and the rounded value in [1, 1024], both ends
included. For `b < 1024^4` the index is 0, 1, 2 or 3 and the unit is the entry
of the table at `i`; for `b ≥ 1024^4` the index is 4 or more, outside the
table, and the unit prints as `undefined`. -/
theorem formatFileSize_spec (b : Nat) :
    formatFileSize 0 = "0 Bytes" ∧
    (1 ≤ b →
      (1024 ^ unitIndex b ≤ b ∧ b < 1024 ^ (unitIndex b + 1)) ∧
      sizeHundredths b =
        ⌊(((b * 100 : ℕ) : ℚ) / ((1024 ^ unitIndex b : ℕ) : ℚ) + 1 / 2)⌋₊ ∧
      (100 ≤ sizeHundredths b ∧ sizeHundredths b ≤ 102400) ∧
      (b < 1024 ^ 4 →
        unitIndex b < 4 ∧
        ∃ unit : String, sizes[unitIndex b]? = some unit ∧
          formatFileSize b = renderHundredths (sizeHundredths b) ++ " " ++ unit) ∧
      (1024 ^ 4 ≤ b →
        4 ≤ unitIndex b ∧ sizes[unitIndex b]? = none ∧
        formatFileSize b = renderHundredths (sizeHundredths b) ++ " " ++ "undefined")) := by
  refine ⟨rfl, ?_⟩
  intro h1
  obtain ⟨hlo, hhi⟩ := unitIndex_spec b h1
  have hpos : 0 < 1024 ^ unitIndex b := pow_pos (by decide) _
  have hb0 : ¬ b = 0 := by omega
  refine ⟨⟨hlo, hhi⟩, ?_, ?_, ?_, ?_⟩
  · exact roundHalfUp_eq_floor (b * 100) (1024 ^ unitIndex b) hpos
  · have hhi' : b < 1024 ^ unitIndex b * 1024 := by
      rw [← pow_succ]
      exact hhi
    unfold sizeHundredths
    generalize 1024 ^ unitIndex b = p at hlo hpos hhi'
    constructor
    · rw [Nat.le_div_iff_mul_le (by omega)]
      omega
    · rw [Nat.div_le_iff_le_mul_add_pred (by omega)]
      omega
  · intro hlt
    have hi : unitIndex b < 4 := by
      by_contra hge
      have h4 : 4 ≤ unitIndex b := by omega
      have : 1024 ^ 4 ≤ 1024 ^ unitIndex b := Nat.pow_le_pow_right (by decide) h4
      omega
    refine ⟨hi, ?_⟩
    have hlen : unitIndex b < sizes.length := hi
    refine ⟨sizes[unitIndex b], List.getElem?_eq_getElem hlen, ?_⟩
    simp [formatFileSize, hb0, List.getElem?_eq_getElem hlen]
  · intro hge
    have hi : 4 ≤ unitIndex b := by
      by_contra hlt
      have h3 : unitIndex b + 1 ≤ 4 := by omega
      have : 1024 ^ (unitIndex b + 1) ≤ 1024 ^ 4 := Nat.pow_le_pow_right (by decide) h3
      omega
    have hnone : sizes[unitIndex b]? = none := List.getElem?_eq_none (by simpa [sizes] using hi)
    exact ⟨hi, hnone, by simp [formatFileSize, hb0, hnone]⟩

/-- The text of `formatFileSize` on sample byte counts. -/
theorem formatFileSize_examples :
    formatFileSize 1 = "1 Bytes" ∧ formatFileSize 1023 = "1023 Bytes" ∧
    formatFileSize 1024 = "1 KB" ∧ formatFileSize 1536 = "1.5 KB" ∧
    formatFileSize 1234567 = "1.18 MB" ∧ formatFileSize 1073741824 = "1 GB" ∧
    formatFileSize (1024 ^ 4) = "1 undefined" := by
  decide

end Datanex
